import Mathlib

/-!
# A verification development for `optional.h`

The header implements `optional<T>` in three layers: `base_destructor<T>` (the
presence flag `is_empty` and the anonymous union `{ nothing; value }`),
`base_copy<T>` (copy/move construction and assignment) and `optional<T>` itself.

The embedding models the specialisations `base_destructor<T, false>` and
`base_copy<T, false>`, i.e. a held type that is neither trivially destructible nor
trivially copyable, so that every explicit constructor, assignment and destructor
call of the header is visible.

* An instance is an `Opt T`: the flag `is_empty` and the union slot, where
  `value = some v` means that the member `value` is a live `T` whose content is `v`
  and `value = none` means that the slot holds no live `T`.  Flag and liveness are
  independent fields, exactly as in the header.
* Instances live in a `World`: a store from addresses to instances, so that
  `this` and the argument of an assignment may be the same object.
* Every operation the header performs on a `T` is appended to the ghost `log`.
* The held type is a parameter (`Held T A`): its constructors and assignment
  operators are functions that may fail (`none` stands for a thrown exception).
-/

namespace StdOptional

/-- Lifetime violations the header could commit on its union slot. -/
inductive Fault where
  /-- A `T` is constructed into a slot that already holds a live `T`. -/
  | doubleConstruct
  /-- `~T()` is run on a slot that holds no live `T`. -/
  | deadDestroy
  /-- The `value` member of a slot that holds no live `T` is read. -/
  | deadRead
  /-- An assignment operator of `T` is applied to a slot that holds no live `T`. -/
  | deadAssign
  deriving DecidableEq, Repr

/-- One operation of the held type, performed on the slot of instance `obj`. -/
inductive Event where
  /-- The call `T(args...)`. -/
  | construct (obj : Nat)
  /-- The call `T(const T&)`. -/
  | copyConstruct (obj : Nat)
  /-- The call `T(T&&)`. -/
  | moveConstruct (obj : Nat)
  /-- The call `T::operator=(const T&)`. -/
  | copyAssign (obj : Nat)
  /-- The call `T::operator=(T&&)`. -/
  | moveAssign (obj : Nat)
  /-- The call `~T()`. -/
  | destroy (obj : Nat)
  deriving DecidableEq, Repr

/-- The held type `T` as the header uses it; `A` stands for the argument packs
`Args&&...` forwarded to a constructor of `T`.  `none` means the call throws. -/
structure Held (T A : Type) where
  /-- The value built by `T(args...)`. -/
  construct : A → Option T
  /-- The value built by `T(const T&)`; the source is not changed. -/
  copyConstruct : T → Option T
  /-- The value built by `T(T&&)` and the moved-from content left in the source. -/
  moveConstruct : T → Option (T × T)
  /-- The content of `a` after `a = b` for distinct objects (first argument `a`). -/
  copyAssign : T → T → Option T
  /-- The contents of `a` and of `b` after `a = std::move(b)` for distinct objects. -/
  moveAssign : T → T → Option (T × T)
  /-- The content of `a` after `a = a`. -/
  selfCopyAssign : T → Option T
  /-- The content of `a` after `a = std::move(a)`. -/
  selfMoveAssign : T → Option T

/-- The data members of `base_destructor<T>`: `bool is_empty` and the union
`{ char* nothing; T value; }`. -/
structure Opt (T : Type) where
  is_empty : Bool
  value : Option T
  deriving DecidableEq, Repr

/-- The store of instances, the next free address and the log of `T` operations. -/
structure World (T : Type) where
  objs : Nat → Option (Opt T)
  next : Nat
  log : List Event

/-- Outcome of running a member function. -/
inductive Res (σ : Type) where
  /-- Normal return. -/
  | ok (s : σ)
  /-- An operation of `T` threw; `s` is the store at the time the exception leaves. -/
  | threw (s : σ)
  /-- The header committed a lifetime violation. -/
  | fault (f : Fault)
  /-- The call names an address at which no instance lives. -/
  | stuck
  deriving DecidableEq, Repr

/-- Sequencing of statements: the rest runs only after a normal return. -/
def Res.andThen {σ : Type} (r : Res σ) (k : σ → Res σ) : Res σ :=
  match r with
  | Res.ok s => k s
  | Res.threw s => Res.threw s
  | Res.fault f => Res.fault f
  | Res.stuck => Res.stuck

variable {T A : Type}

/-- The world before any instance exists. -/
def World.empty : World T :=
  { objs := fun _ => none, next := 0, log := [] }

/-- Overwrite the data members of the instance at address `i`. -/
def World.setObj (w : World T) (i : Nat) (o : Opt T) : World T :=
  { w with objs := Function.update w.objs i (some o) }

/-- Append one `T` operation to the log. -/
def World.emit (w : World T) (e : Event) : World T :=
  { w with log := w.log ++ [e] }

/-- Storage for a new instance with data members `o`, at the next free address. -/
def World.alloc (w : World T) (o : Opt T) : World T :=
  { w with objs := Function.update w.objs w.next (some o), next := w.next + 1 }

/-- The storage of the instance at `i` is released. -/
def World.free (w : World T) (i : Nat) : World T :=
  { w with objs := Function.update w.objs i none }

/-! ## Statements of the header -/

/-- The statement `this->is_empty = b;`. -/
def set_is_empty (this : Nat) (b : Bool) (w : World T) : Res (World T) :=
  match w.objs this with
  | none => Res.stuck
  | some o => Res.ok (w.setObj this { o with is_empty := b })

/-- The statement `this->is_empty = copy_class.is_empty;`. -/
def copy_is_empty (this copy_class : Nat) (w : World T) : Res (World T) :=
  match w.objs copy_class with
  | none => Res.stuck
  | some s => set_is_empty this s.is_empty w

/-- The statement `this->value.~T();`. -/
def destroy_value (this : Nat) (w : World T) : Res (World T) :=
  match w.objs this with
  | none => Res.stuck
  | some o =>
    match o.value with
    | none => Res.fault Fault.deadDestroy
    | some _ => Res.ok ((w.setObj this { o with value := none }).emit (Event.destroy this))

/-- The statement `new (&this->value) T(std::forward<Args>(args)...);`. -/
def new_value (h : Held T A) (this : Nat) (args : A) (w : World T) : Res (World T) :=
  match w.objs this with
  | none => Res.stuck
  | some o =>
    match o.value with
    | some _ => Res.fault Fault.doubleConstruct
    | none =>
      match h.construct args with
      | none => Res.threw w
      | some v => Res.ok ((w.setObj this { o with value := some v }).emit (Event.construct this))

/-- The statement `new (&this->value) T(copy_class.value);`. -/
def new_value_copy (h : Held T A) (this copy_class : Nat) (w : World T) : Res (World T) :=
  match w.objs this, w.objs copy_class with
  | some o, some s =>
    match o.value with
    | some _ => Res.fault Fault.doubleConstruct
    | none =>
      match s.value with
      | none => Res.fault Fault.deadRead
      | some sv =>
        match h.copyConstruct sv with
        | none => Res.threw w
        | some v =>
          Res.ok ((w.setObj this { o with value := some v }).emit (Event.copyConstruct this))
  | _, _ => Res.stuck

/-- The statement `new (&this->value) T(std::move(copy_class.value));`. -/
def new_value_move (h : Held T A) (this copy_class : Nat) (w : World T) : Res (World T) :=
  match w.objs this, w.objs copy_class with
  | some o, some s =>
    match o.value with
    | some _ => Res.fault Fault.doubleConstruct
    | none =>
      match s.value with
      | none => Res.fault Fault.deadRead
      | some sv =>
        match h.moveConstruct sv with
        | none => Res.threw w
        | some (v, sv') =>
          Res.ok (((w.setObj copy_class { s with value := some sv' }).setObj this
            { o with value := some v }).emit (Event.moveConstruct this))
  | _, _ => Res.stuck

/-- The argument pack `Args&&... args` of `emplace`.  The header takes the arguments by
reference, so what the constructor of `T` reads is decided when it runs.  A pack is
either made of objects that belong to no optional (`values a`: the constructor
`T(args...)` sees the content `a`), or it is the value held by the instance at `src`,
as in `x.emplace(*y)`: then `T` is built by its copy constructor from whatever the
slot of `src` holds at that moment. -/
inductive ArgPack (A : Type) where
  /-- Arguments that refer to objects outside every optional. -/
  | values (a : A)
  /-- The argument `*y` for the instance `y` at address `src`. -/
  | deref (src : Nat)
  deriving DecidableEq, Repr

/-- The statement `new (&this->value) T(std::forward<Args>(args)...);` of `emplace`, for
either kind of argument pack. -/
def new_value_pack (h : Held T A) (this : Nat) (args : ArgPack A) (w : World T) :
    Res (World T) :=
  match args with
  | ArgPack.values a => new_value h this a w
  | ArgPack.deref src => new_value_copy h this src w

/-- The statement `this->value = copy_class.value;`. -/
def assign_value_copy (h : Held T A) (this copy_class : Nat) (w : World T) : Res (World T) :=
  match w.objs this, w.objs copy_class with
  | some o, some s =>
    match o.value with
    | none => Res.fault Fault.deadAssign
    | some dv =>
      match s.value with
      | none => Res.fault Fault.deadRead
      | some sv =>
        match (if this = copy_class then h.selfCopyAssign dv else h.copyAssign dv sv) with
        | none => Res.threw w
        | some v =>
          Res.ok ((w.setObj this { o with value := some v }).emit (Event.copyAssign this))
  | _, _ => Res.stuck

/-- The statement `this->value = std::move(copy_class.value);`. -/
def assign_value_move (h : Held T A) (this copy_class : Nat) (w : World T) : Res (World T) :=
  match w.objs this, w.objs copy_class with
  | some o, some s =>
    match o.value with
    | none => Res.fault Fault.deadAssign
    | some dv =>
      match s.value with
      | none => Res.fault Fault.deadRead
      | some sv =>
        if this = copy_class then
          match h.selfMoveAssign dv with
          | none => Res.threw w
          | some v =>
            Res.ok ((w.setObj this { o with value := some v }).emit (Event.moveAssign this))
        else
          match h.moveAssign dv sv with
          | none => Res.threw w
          | some (v, sv') =>
            Res.ok (((w.setObj copy_class { s with value := some sv' }).setObj this
              { o with value := some v }).emit (Event.moveAssign this))
  | _, _ => Res.stuck

/-! ## `base_destructor<T, false>` -/

/-- The constructor `base_destructor() : is_empty(true), nothing()`. -/
def base_destructor.ctor_default : Opt T :=
  { is_empty := true, value := none }

/-- The constructor `base_destructor(nullopt_t) : is_empty(true), nothing()`. -/
def base_destructor.ctor_nullopt : Opt T :=
  { is_empty := true, value := none }

/-- The constructor `base_destructor(in_place_t, Args&&... args)` with initialisers
`is_empty(false), value(std::forward<Args>(args)...)`.  When the constructor of
`T` throws, no member has been constructed and no instance comes to exist. -/
def base_destructor.ctor_in_place (h : Held T A) (args : A) (w : World T) : Res (World T) :=
  match h.construct args with
  | none => Res.threw w
  | some v => Res.ok ((w.alloc { is_empty := false, value := some v }).emit (Event.construct w.next))

/-- The destructor `~base_destructor()`: `if (!is_empty) { value.~T(); }`, after
which the storage of the instance is gone. -/
def base_destructor.dtor (this : Nat) (w : World T) : Res (World T) :=
  match w.objs this with
  | none => Res.stuck
  | some o =>
    (if !o.is_empty then destroy_value this w else Res.ok w).andThen
      (fun w1 => Res.ok (w1.free this))

/-! ## `base_copy<T, false>` -/

/-- Leaving a constructor body of `base_copy` by an exception: the base class
subobject is complete, so `~base_destructor()` runs on it before the exception
reaches the caller. -/
def unwind_base (this : Nat) (r : Res (World T)) : Res (World T) :=
  match r with
  | Res.threw w1 =>
    match base_destructor.dtor this w1 with
    | Res.ok w2 => Res.threw w2
    | Res.threw w2 => Res.threw w2
    | Res.fault f => Res.fault f
    | Res.stuck => Res.stuck
  | other => other

/-- The constructor `base_copy(const base_copy& copy_class)`.  It has no member
initialiser list, so the base class subobject is built by `base_destructor()`. -/
def base_copy.ctor_copy (h : Held T A) (copy_class : Nat) (w : World T) : Res (World T) :=
  match w.objs copy_class with
  | none => Res.stuck
  | some s =>
    let this := w.next
    let w0 := w.alloc base_destructor.ctor_default
    if !s.is_empty then
      unwind_base this
        ((copy_is_empty this copy_class w0).andThen (new_value_copy h this copy_class))
    else
      Res.ok w0

/-- The constructor `base_copy(base_copy&& copy_class)`. -/
def base_copy.ctor_move (h : Held T A) (copy_class : Nat) (w : World T) : Res (World T) :=
  match w.objs copy_class with
  | none => Res.stuck
  | some s =>
    let this := w.next
    let w0 := w.alloc base_destructor.ctor_default
    if !s.is_empty then
      unwind_base this
        ((copy_is_empty this copy_class w0).andThen (new_value_move h this copy_class))
    else
      Res.ok w0

/-- The operator `base_copy& operator=(const base_copy& copy_class)`. -/
def base_copy.assign_copy (h : Held T A) (this copy_class : Nat) (w : World T) :
    Res (World T) :=
  match w.objs this, w.objs copy_class with
  | some d, some s =>
    (if d.is_empty then
      if !s.is_empty then new_value_copy h this copy_class w else Res.ok w
    else
      if s.is_empty then destroy_value this w else assign_value_copy h this copy_class w).andThen
      (copy_is_empty this copy_class)
  | _, _ => Res.stuck

/-- The operator `base_copy& operator=(base_copy&& copy_class)`. -/
def base_copy.assign_move (h : Held T A) (this copy_class : Nat) (w : World T) :
    Res (World T) :=
  match w.objs this, w.objs copy_class with
  | some d, some s =>
    (if d.is_empty then
      if !s.is_empty then new_value_move h this copy_class w else Res.ok w
    else
      if s.is_empty then destroy_value this w else assign_value_move h this copy_class w).andThen
      (copy_is_empty this copy_class)
  | _, _ => Res.stuck

/-! ## `optional<T>` -/

/-- The constructor `optional(T value) : base(in_place, std::move(value))`: the
inherited in-place constructor with `Args = T`, so `value` is initialised by the
move constructor of `T` from the by-value parameter (an object of the caller). -/
def optional.ctor_value (h : Held T A) (value : T) (w : World T) : Res (World T) :=
  match h.moveConstruct value with
  | none => Res.threw w
  | some (v, _) =>
    Res.ok ((w.alloc { is_empty := false, value := some v }).emit (Event.moveConstruct w.next))

/-- The member `void reset()`: `if (!is_empty) { value.~T(); } is_empty = true;`. -/
def optional.reset (this : Nat) (w : World T) : Res (World T) :=
  match w.objs this with
  | none => Res.stuck
  | some o =>
    (if !o.is_empty then destroy_value this w else Res.ok w).andThen (set_is_empty this true)

/-- The operator `optional& operator=(nullopt_t)`: `reset(); return *this;`. -/
def optional.assign_nullopt (this : Nat) (w : World T) : Res (World T) :=
  optional.reset this w

/-- The member `void emplace(Args&&... args)`: `reset();`, then the placement
new of `T(args...)`, then `is_empty = false;`.  The arguments are references: they
are read by the constructor of `T`, after `reset()` has run. -/
def optional.emplace (h : Held T A) (this : Nat) (args : ArgPack A) (w : World T) :
    Res (World T) :=
  (optional.reset this w).andThen fun w1 =>
    (new_value_pack h this args w1).andThen (set_is_empty this false)

/-- The conversion `explicit operator bool()`: `return !is_empty;`. -/
def optional.operator_bool (o : Opt T) : Bool :=
  !o.is_empty

/-- The operator `T& operator*()` (and its `const` form): `return this->value;`.
The result `none` stands for the undefined behaviour of reading a slot that holds
no live `T`. -/
def optional.operator_star (o : Opt T) : Option T :=
  o.value

/-! ## `base_copy<T, true>` -/

/-- The constructor `base_copy(const base_copy&) = default` of the trivially copyable
specialisation: the flag and the bytes of the union are copied member by member, and
no function of `T` is called. -/
def base_copy_trivial.ctor_copy (copy_class : Nat) (w : World T) : Res (World T) :=
  match w.objs copy_class with
  | none => Res.stuck
  | some s => Res.ok (w.alloc { is_empty := s.is_empty, value := s.value })

/-- The constructor `base_copy(base_copy&&) = default` of the trivially copyable
specialisation: for trivially copyable members a move is the same member-wise copy. -/
def base_copy_trivial.ctor_move (copy_class : Nat) (w : World T) : Res (World T) :=
  match w.objs copy_class with
  | none => Res.stuck
  | some s => Res.ok (w.alloc { is_empty := s.is_empty, value := s.value })

/-- The operator `base_copy& operator=(const base_copy&) = default` of the trivially
copyable specialisation. -/
def base_copy_trivial.assign_copy (this copy_class : Nat) (w : World T) : Res (World T) :=
  match w.objs this, w.objs copy_class with
  | some _, some s => Res.ok (w.setObj this { is_empty := s.is_empty, value := s.value })
  | _, _ => Res.stuck

/-- The operator `base_copy& operator=(base_copy&&) = default` of the trivially
copyable specialisation. -/
def base_copy_trivial.assign_move (this copy_class : Nat) (w : World T) : Res (World T) :=
  match w.objs this, w.objs copy_class with
  | some _, some s => Res.ok (w.setObj this { is_empty := s.is_empty, value := s.value })
  | _, _ => Res.stuck

/-! ## Comparison operators

The operators of `T` are parameters: `eq` is `T`'s `==` and `lt` is `T`'s `<`.  A
result `none` stands for the undefined behaviour of dereferencing an optional whose
slot holds no live `T`. -/

/-- The free function `operator==`:
`if (bool(a) != bool(b)) return false;`
`else if (bool(a) == bool(b) && !bool(a)) return true;`
`else return *a == *b;`. -/
def operator_eq (eq : T → T → Bool) (a b : Opt T) : Option Bool :=
  if (optional.operator_bool a != optional.operator_bool b) = true then some false
  else if (optional.operator_bool a == optional.operator_bool b &&
      !optional.operator_bool a) = true then some true
  else
    match optional.operator_star a, optional.operator_star b with
    | some x, some y => some (eq x y)
    | _, _ => none

/-- The free function `operator!=`: `return !(a == b);`. -/
def operator_ne (eq : T → T → Bool) (a b : Opt T) : Option Bool :=
  (operator_eq eq a b).map fun r => !r

/-- The free function `operator<`:
`if (!bool(b)) return false; else if (!bool(a)) return true; else return *a < *b;`. -/
def operator_lt (lt : T → T → Bool) (a b : Opt T) : Option Bool :=
  if (!optional.operator_bool b) = true then some false
  else if (!optional.operator_bool a) = true then some true
  else
    match optional.operator_star a, optional.operator_star b with
    | some x, some y => some (lt x y)
    | _, _ => none

/-- The free function `operator<=`: `return a < b || a == b;`, where `a == b` is only
evaluated when `a < b` is false. -/
def operator_le (eq lt : T → T → Bool) (a b : Opt T) : Option Bool :=
  match operator_lt lt a b with
  | none => none
  | some true => some true
  | some false => operator_eq eq a b

/-- The free function `operator>`: `return !(a <= b);`. -/
def operator_gt (eq lt : T → T → Bool) (a b : Opt T) : Option Bool :=
  (operator_le eq lt a b).map fun r => !r

/-- The free function `operator>=`: `return !(a < b);`. -/
def operator_ge (lt : T → T → Bool) (a b : Opt T) : Option Bool :=
  (operator_lt lt a b).map fun r => !r

/-! ## Sequences of operations -/

/-- One call made by a client of the header. -/
inductive Op (T A : Type) where
  /-- Declaring `optional<T> x;`. -/
  | ctor_default
  /-- Declaring `optional<T> x(nullopt);`. -/
  | ctor_nullopt
  /-- Declaring `optional<T> x(in_place, args...);`. -/
  | ctor_in_place (args : A)
  /-- Declaring `optional<T> x(v);`. -/
  | ctor_value (v : T)
  /-- Declaring `optional<T> x(y);` for the instance `y` at `src`. -/
  | ctor_copy (src : Nat)
  /-- Declaring `optional<T> x(std::move(y));` for the instance `y` at `src`. -/
  | ctor_move (src : Nat)
  /-- The call `x.emplace(args...)`. -/
  | emplace (this : Nat) (args : ArgPack A)
  /-- The call `x.reset()`. -/
  | reset (this : Nat)
  /-- The assignment `x = nullopt`. -/
  | assign_nullopt (this : Nat)
  /-- The assignment `x = y`. -/
  | assign_copy (this src : Nat)
  /-- The assignment `x = std::move(y)`. -/
  | assign_move (this src : Nat)
  /-- The end of the lifetime of `x`. -/
  | dtor (this : Nat)

/-- Run one call. -/
def step (h : Held T A) (op : Op T A) (w : World T) : Res (World T) :=
  match op with
  | Op.ctor_default => Res.ok (w.alloc base_destructor.ctor_default)
  | Op.ctor_nullopt => Res.ok (w.alloc base_destructor.ctor_nullopt)
  | Op.ctor_in_place args => base_destructor.ctor_in_place h args w
  | Op.ctor_value v => optional.ctor_value h v w
  | Op.ctor_copy src => base_copy.ctor_copy h src w
  | Op.ctor_move src => base_copy.ctor_move h src w
  | Op.emplace this args => optional.emplace h this args w
  | Op.reset this => optional.reset this w
  | Op.assign_nullopt this => optional.assign_nullopt this w
  | Op.assign_copy this src => base_copy.assign_copy h this src w
  | Op.assign_move this src => base_copy.assign_move h this src w
  | Op.dtor this => base_destructor.dtor this w

/-- Run a sequence of calls, stopping at the first one that does not return normally. -/
def run (h : Held T A) : List (Op T A) → World T → Res (World T)
  | [], w => Res.ok w
  | op :: ops, w => (step h op w).andThen (run h ops)

/-- The data-model invariant of one instance: the flag says present exactly when
the slot holds a live `T`. -/
def Opt.Inv (o : Opt T) : Prop :=
  o.is_empty = false ↔ o.value.isSome = true

instance Opt.decidableInv (o : Opt T) : Decidable o.Inv := by
  unfold Opt.Inv
  infer_instance

/-- Every instance satisfies the invariant, and no instance lives at or above the
next free address. -/
def World.Inv (w : World T) : Prop :=
  (∀ i o, w.objs i = some o → o.Inv) ∧ (∀ i, w.next ≤ i → w.objs i = none)

/-- An argument pack of `x.emplace` may be used: a pack `*y` must refer to the live
value of an instance other than `x` itself. -/
def ArgPack.Valid (w : World T) (this : Nat) : ArgPack A → Prop
  | ArgPack.values _ => True
  | ArgPack.deref src =>
    src ≠ this ∧ (match w.objs src with
      | some s => s.value.isSome
      | none => false) = true

instance ArgPack.decidableValid (w : World T) (this : Nat) (args : ArgPack A) :
    Decidable (args.Valid w this) := by
  cases args <;> unfold ArgPack.Valid <;> infer_instance

/-- The addresses a call names denote living instances, and the arguments of `emplace`
may be used. -/
def Op.Valid (w : World T) : Op T A → Prop
  | Op.ctor_default => True
  | Op.ctor_nullopt => True
  | Op.ctor_in_place _ => True
  | Op.ctor_value _ => True
  | Op.ctor_copy src => (w.objs src).isSome = true
  | Op.ctor_move src => (w.objs src).isSome = true
  | Op.emplace this args => (w.objs this).isSome = true ∧ args.Valid w this
  | Op.reset this => (w.objs this).isSome = true
  | Op.assign_nullopt this => (w.objs this).isSome = true
  | Op.assign_copy this src => (w.objs this).isSome = true ∧ (w.objs src).isSome = true
  | Op.assign_move this src => (w.objs this).isSome = true ∧ (w.objs src).isSome = true
  | Op.dtor this => (w.objs this).isSome = true

instance Op.decidableValid (w : World T) (op : Op T A) : Decidable (op.Valid w) := by
  cases op <;> unfold Op.Valid <;> infer_instance

/-- Every call of a sequence is valid in the world in which it is made. -/
def ValidRun (h : Held T A) : List (Op T A) → World T → Prop
  | [], _ => True
  | op :: ops, w =>
    op.Valid w ∧
      match step h op w with
      | Res.ok w' => ValidRun h ops w'
      | _ => True

/-- Whether a call is a copy or move construction. -/
def Op.isCopyOrMoveCtor : Op T A → Bool
  | Op.ctor_copy _ => true
  | Op.ctor_move _ => true
  | _ => false

/-- No operation of the held type ever throws. -/
def Held.NoThrow (h : Held T A) : Prop :=
  (∀ a, (h.construct a).isSome = true) ∧ (∀ v, (h.copyConstruct v).isSome = true) ∧
  (∀ v, (h.moveConstruct v).isSome = true) ∧ (∀ a b, (h.copyAssign a b).isSome = true) ∧
  (∀ a b, (h.moveAssign a b).isSome = true) ∧ (∀ v, (h.selfCopyAssign v).isSome = true) ∧
  (∀ v, (h.selfMoveAssign v).isSome = true)

/-- Whether an event is a construction of a `T`. -/
def Event.isConstruction : Event → Bool
  | Event.construct _ => true
  | Event.copyConstruct _ => true
  | Event.moveConstruct _ => true
  | _ => false

/-- Whether an event is a destruction of a `T`. -/
def Event.isDestruction : Event → Bool
  | Event.destroy _ => true
  | _ => false

/-- Number of `T` constructions in a log. -/
def constructions (l : List Event) : Nat :=
  l.countP Event.isConstruction

/-- Number of `T` destructions in a log. -/
def destructions (l : List Event) : Nat :=
  l.countP Event.isDestruction

/-- Whether the slot of the instance at an address (if any) holds a live `T`. -/
def slotLive : Option (Opt T) → Nat
  | some o => if o.value.isSome then 1 else 0
  | none => 0

/-- Number of live `T` objects owned by the instances of a world. -/
def World.liveCount (w : World T) : Nat :=
  ∑ i in Finset.range w.next, slotLive (w.objs i)

/-- Constructions logged so far, minus destructions logged so far, minus the live
`T` objects: zero exactly when every `T` ever constructed is either still owned by
an instance or has been destroyed once. -/
def World.excess (w : World T) : Int :=
  (constructions w.log : Int) - (destructions w.log : Int) - (w.liveCount : Int)

/-- An outcome that keeps the books: the call returned or threw, and the world it
leaves satisfies the invariant with the excess of the world `w` it started from. -/
def Res.Sound (w : World T) : Res (World T) → Prop
  | Res.ok w' => w'.Inv ∧ w'.excess = w.excess
  | Res.threw w' => w'.Inv ∧ w'.excess = w.excess
  | Res.fault _ => False
  | Res.stuck => False

/-- A held type that is trivially copyable in effect: copy and move construction and
assignment reproduce the bytes of the source and leave the source as it was (the
destructor of the model never does more than end the lifetime). -/
def Held.Bitwise (h : Held T A) : Prop :=
  (∀ v, h.copyConstruct v = some v) ∧ (∀ v, h.moveConstruct v = some (v, v)) ∧
  (∀ a b, h.copyAssign a b = some b) ∧ (∀ a b, h.moveAssign a b = some (b, b)) ∧
  (∀ v, h.selfCopyAssign v = some v) ∧ (∀ v, h.selfMoveAssign v = some v)

/-- Both outcomes are normal returns, the worlds they leave hold the same instances,
and the instances they hold at `dst` have the same presence and, when present, the
same contained value. -/
def SameDestination (dst : Nat) (r1 r2 : Res (World T)) : Prop :=
  ∃ w1 w2 d1 d2, r1 = Res.ok w1 ∧ r2 = Res.ok w2 ∧
    w1.objs dst = some d1 ∧ w2.objs dst = some d2 ∧
    optional.operator_bool d1 = optional.operator_bool d2 ∧
    (optional.operator_bool d1 = true →
      optional.operator_star d1 = optional.operator_star d2) ∧
    w1.objs = w2.objs

/-- The same held type with its four assignment operators replaced. -/
def Held.withAssign (h : Held T A) (ca : T → T → Option T) (ma : T → T → Option (T × T))
    (sca sma : T → Option T) : Held T A :=
  { h with copyAssign := ca, moveAssign := ma, selfCopyAssign := sca, selfMoveAssign := sma }

/-- The relation `lt` is a strict order: irreflexive and transitive. -/
def StrictOrder (lt : T → T → Bool) : Prop :=
  (∀ a, lt a a = false) ∧ (∀ a b c, lt a b = true → lt b c = true → lt a c = true)

/-- The relation `eq` is the equality induced by `lt`: two values are equal exactly when
neither is less than the other.  Together with `StrictOrder lt` this makes `lt` a
strict total order with respect to `eq`. -/
def InducedEq (eq lt : T → T → Bool) : Prop :=
  ∀ a b, eq a b = true ↔ (lt a b = false ∧ lt b a = false)

/-! ## Concrete held types and worlds -/

/-- A held type over `Nat` in the manner of a well-behaved value type: copies
reproduce the source, a move leaves `0` behind, self-assignment changes nothing. -/
def natHeld : Held Nat Nat :=
  { construct := fun a => some a
    copyConstruct := fun v => some v
    moveConstruct := fun v => some (v, 0)
    copyAssign := fun _ b => some b
    moveAssign := fun _ b => some (b, 0)
    selfCopyAssign := fun v => some v
    selfMoveAssign := fun v => some v }

/-- A held type whose constructor from arguments throws on `0`. -/
def throwingHeld : Held Nat Nat :=
  { natHeld with construct := fun a => if a = 0 then none else some a }

/-- A held type whose copy constructor always throws. -/
def throwingCopyHeld : Held Nat Nat :=
  { natHeld with copyConstruct := fun _ => none }

/-- A held type whose move assignment releases the content of its own object before
taking over that of the argument, as a container that clears itself does: after
`a = std::move(a)` the object is left with the moved-from content `0`. -/
def clearingHeld : Held Nat Nat :=
  { natHeld with selfMoveAssign := fun _ => some 0 }

/-- A held type whose move constructor always throws. -/
def throwingMoveHeld : Held Nat Nat :=
  { natHeld with moveConstruct := fun _ => none }

/-- Two instances: an empty one at address `0` and one holding `7` at address `1`. -/
def world01 : World Nat :=
  { objs := fun i =>
      if i = 0 then some { is_empty := true, value := none }
      else if i = 1 then some { is_empty := false, value := some 7 }
      else none
    next := 2
    log := [] }

/-- The held type `int`: every copy and move reproduces the value. -/
def intHeld : Held Int Int :=
  { construct := fun a => some a
    copyConstruct := fun v => some v
    moveConstruct := fun v => some (v, v)
    copyAssign := fun _ b => some b
    moveAssign := fun _ b => some (b, b)
    selfCopyAssign := fun v => some v
    selfMoveAssign := fun v => some v }

/-- The operator `==` of `int`. -/
def intEq (x y : Int) : Bool :=
  decide (x = y)

/-- The operator `<` of `int`. -/
def intLt (x y : Int) : Bool :=
  decide (x < y)

/-- The operator `==` of `unsigned`, on the naturals. -/
def natEq (x y : Nat) : Bool :=
  decide (x = y)

/-- The object `optional<int>()`, as the first instance of a program. -/
def optional_int_empty : Option (Opt Int) :=
  match step intHeld Op.ctor_default World.empty with
  | Res.ok w => w.objs 0
  | _ => none

/-- The object `optional<int>(n)`, as the first instance of a program. -/
def optional_int (n : Int) : Option (Opt Int) :=
  match step intHeld (Op.ctor_value n) World.empty with
  | Res.ok w => w.objs 0
  | _ => none

/-- A comparison applied to two objects that constructors have built. -/
def on_built (f : Opt Int → Opt Int → Option Bool) (a b : Option (Opt Int)) : Option Bool :=
  a.bind fun x => b.bind fun y => f x y

/-- Two present instances: one holding `3` at address `0` and one holding `7` at `1`. -/
def world37 : World Nat :=
  { objs := fun i =>
      if i = 0 then some { is_empty := false, value := some 3 }
      else if i = 1 then some { is_empty := false, value := some 7 }
      else none
    next := 2
    log := [] }

/-- A held type over `Nat` whose copies and moves all reproduce the source. -/
def natBitwiseHeld : Held Nat Nat :=
  { construct := fun a => some a
    copyConstruct := fun v => some v
    moveConstruct := fun v => some (v, v)
    copyAssign := fun _ b => some b
    moveAssign := fun _ b => some (b, b)
    selfCopyAssign := fun v => some v
    selfMoveAssign := fun v => some v }

/-- A probe type that counts its moves: the value is the number of move constructions
in its history, so the move constructor builds `v + 1` from a source holding `v`. -/
def moveCountingHeld : Held Nat Nat :=
  { natHeld with moveConstruct := fun v => some (v + 1, v) }

/-- A held type whose copy assignment always throws. -/
def throwingAssignHeld : Held Nat Nat :=
  { natHeld with copyAssign := fun _ _ => none }

/-! ## Basic facts about worlds and outcomes -/

@[simp]
theorem andThen_ok {σ : Type} (s : σ) (k : σ → Res σ) : (Res.ok s).andThen k = k s := rfl
@[simp]
theorem andThen_threw {σ : Type} (s : σ) (k : σ → Res σ) : (Res.threw s).andThen k = Res.threw s := rfl
@[simp]
theorem andThen_fault {σ : Type} (f : Fault) (k : σ → Res σ) : (Res.fault f).andThen k = Res.fault f := rfl
@[simp]
theorem andThen_stuck {σ : Type} (k : σ → Res σ) : (Res.stuck).andThen k = Res.stuck := rfl

@[simp]
theorem setObj_objs_same (w : World T) (i : Nat) (o : Opt T) : (w.setObj i o).objs i = some o := by
  simp [World.setObj]
theorem setObj_objs_ne (w : World T) (i j : Nat) (o : Opt T) (hne : j ≠ i) : (w.setObj i o).objs j = w.objs j := by
  simp [World.setObj, Function.update_noteq hne]
theorem setObj_objs (w : World T) (i j : Nat) (o : Opt T) : (w.setObj i o).objs j = if j = i then some o else w.objs j := by
  simp [World.setObj, Function.update_apply]
@[simp]
theorem setObj_log (w : World T) (i : Nat) (o : Opt T) : (w.setObj i o).log = w.log := rfl
@[simp]
theorem setObj_next (w : World T) (i : Nat) (o : Opt T) : (w.setObj i o).next = w.next := rfl
@[simp]
theorem emit_objs (w : World T) (e : Event) : (w.emit e).objs = w.objs := rfl
@[simp]
theorem emit_log (w : World T) (e : Event) : (w.emit e).log = w.log ++ [e] := rfl
@[simp]
theorem emit_next (w : World T) (e : Event) : (w.emit e).next = w.next := rfl

theorem setObj_self (w : World T) (i : Nat) (o : Opt T) (hobj : w.objs i = some o) : w.setObj i o = w := by
  cases w with
  | mk objs next log =>
    simp only [World.setObj, World.mk.injEq, and_true]
    simp only at hobj
    rw [← hobj]
    exact Function.update_eq_self i objs

@[simp]
theorem alloc_objs_same (w : World T) (o : Opt T) : (w.alloc o).objs w.next = some o := by
  simp [World.alloc]
theorem alloc_objs_ne (w : World T) (j : Nat) (o : Opt T) (hne : j ≠ w.next) :
    (w.alloc o).objs j = w.objs j := by
  simp [World.alloc, Function.update_noteq hne]
@[simp]
theorem alloc_log (w : World T) (o : Opt T) : (w.alloc o).log = w.log := rfl
@[simp]
theorem alloc_next (w : World T) (o : Opt T) : (w.alloc o).next = w.next + 1 := rfl

theorem ne_next_of_some {w : World T} {i : Nat} {o : Opt T} (hobj : w.objs i = some o)
    (hfresh : w.objs w.next = none) : i ≠ w.next := by
  intro hc
  rw [hc, hfresh] at hobj
  cases hobj

theorem lt_next_of_some {w : World T} (hinv : w.Inv) {i : Nat} (hobj : (w.objs i).isSome = true) :
    i < w.next := by
  by_contra hc
  have := hinv.2 i (Nat.le_of_not_lt hc)
  simp [this] at hobj

theorem inv_emit {w : World T} (hinv : w.Inv) (e : Event) : (w.emit e).Inv := hinv

theorem inv_setObj {w : World T} (hinv : w.Inv) {i : Nat} {o : Opt T} (ho : o.Inv)
    (hobj : (w.objs i).isSome = true) : (w.setObj i o).Inv := by
  refine ⟨fun j o' hj => ?_, fun j hj => ?_⟩
  · rw [setObj_objs] at hj
    split at hj
    · cases hj
      exact ho
    · exact hinv.1 j o' hj
  · have hlt := lt_next_of_some hinv hobj
    have hne : j ≠ i := by
      simp only [setObj_next] at hj
      omega
    rw [setObj_objs_ne _ _ _ _ hne]
    exact hinv.2 j hj

theorem inv_alloc {w : World T} (hinv : w.Inv) {o : Opt T} (ho : o.Inv) : (w.alloc o).Inv := by
  refine ⟨fun j o' hj => ?_, fun j hj => ?_⟩
  · by_cases hjn : j = w.next
    · subst hjn
      simp at hj
      subst hj
      exact ho
    · rw [alloc_objs_ne _ _ _ hjn] at hj
      exact hinv.1 j o' hj
  · simp only [alloc_next] at hj
    have hne : j ≠ w.next := by omega
    rw [alloc_objs_ne _ _ _ hne]
    exact hinv.2 j (by omega)

theorem free_objs (w : World T) (i j : Nat) :
    (w.free i).objs j = if j = i then none else w.objs j := by
  simp [World.free, Function.update_apply]
@[simp]
theorem free_log (w : World T) (i : Nat) : (w.free i).log = w.log := rfl
@[simp]
theorem free_next (w : World T) (i : Nat) : (w.free i).next = w.next := rfl

theorem inv_free {w : World T} (hinv : w.Inv) (i : Nat) : (w.free i).Inv := by
  refine ⟨fun j o' hj => ?_, fun j hj => ?_⟩
  · rw [free_objs] at hj
    split at hj
    · cases hj
    · exact hinv.1 j o' hj
  · rw [free_objs]
    split
    · rfl
    · exact hinv.2 j hj

theorem fresh_of_inv {w : World T} (hinv : w.Inv) : w.objs w.next = none :=
  hinv.2 w.next (Nat.le_refl _)

@[simp]
theorem setObj_setObj_same (w : World T) (i : Nat) (a b : Opt T) :
    (w.setObj i a).setObj i b = w.setObj i b := by
  simp [World.setObj]

@[simp]
theorem emit_setObj (w : World T) (e : Event) (i : Nat) (o : Opt T) :
    (w.emit e).setObj i o = (w.setObj i o).emit e := rfl

@[simp]
theorem free_setObj_same (w : World T) (i : Nat) (o : Opt T) :
    (w.setObj i o).free i = w.free i := by
  simp [World.setObj, World.free]

@[simp]
theorem emit_free (w : World T) (e : Event) (i : Nat) :
    (w.emit e).free i = (w.free i).emit e := rfl

@[simp]
theorem inv_emit_iff (w : World T) (e : Event) : (w.emit e).Inv ↔ w.Inv := Iff.rfl

@[simp]
theorem slotLive_none : slotLive (none : Option (Opt T)) = 0 := rfl
@[simp]
theorem slotLive_some_none (b : Bool) :
    slotLive (some ({ is_empty := b, value := none } : Opt T)) = 0 := rfl
@[simp]
theorem slotLive_some_some (b : Bool) (v : T) :
    slotLive (some ({ is_empty := b, value := some v } : Opt T)) = 1 := rfl

@[simp]
theorem liveCount_emit (w : World T) (e : Event) : (w.emit e).liveCount = w.liveCount := rfl

theorem liveCount_update (objs : Nat → Option (Opt T)) (n i : Nat) (x : Option (Opt T))
    (hi : i < n) :
    (∑ j in Finset.range n, slotLive (Function.update objs i x j)) + slotLive (objs i) =
      (∑ j in Finset.range n, slotLive (objs j)) + slotLive x := by
  have hmem : i ∈ Finset.range n := Finset.mem_range.mpr hi
  have h1 : (fun j => slotLive (Function.update objs i x j)) =
      Function.update (fun j => slotLive (objs j)) i (slotLive x) := by
    funext j
    simp only [Function.update_apply]
    split <;> rfl
  have h2 := Finset.sum_update_of_mem hmem (fun j => slotLive (objs j)) (slotLive x)
  have h3 := Finset.sum_erase_add (Finset.range n) (fun j => slotLive (objs j)) hmem
  have h4 : Finset.range n \ {i} = (Finset.range n).erase i := by
    ext j; simp [and_comm]
  simp only [] at h3
  rw [h1, h2, h4, ← h3]
  omega

theorem excess_setObj (w : World T) (i : Nat) (o : Opt T) (hi : i < w.next) :
    (w.setObj i o).excess = w.excess + slotLive (w.objs i) - slotLive (some o) := by
  have := liveCount_update w.objs w.next i (some o) hi
  simp only [World.excess, World.liveCount, World.setObj]
  omega

theorem excess_free (w : World T) (i : Nat) (hi : i < w.next) :
    (w.free i).excess = w.excess + slotLive (w.objs i) := by
  have := liveCount_update w.objs w.next i none hi
  simp only [World.excess, World.liveCount, World.free]
  simp only [slotLive_none] at this
  omega

theorem excess_alloc (w : World T) (o : Opt T) (hfresh : w.objs w.next = none) :
    (w.alloc o).excess = w.excess - slotLive (some o) := by
  have h1 := liveCount_update w.objs (w.next + 1) w.next (some o) (Nat.lt_succ_self _)
  rw [Finset.sum_range_succ, Finset.sum_range_succ] at h1
  simp only [World.excess, World.liveCount, World.alloc]
  rw [Finset.sum_range_succ]
  rw [hfresh] at h1
  simp only [slotLive_none] at h1
  omega

theorem excess_emit (w : World T) (e : Event) :
    (w.emit e).excess = w.excess + (if e.isConstruction then 1 else 0) -
      (if e.isDestruction then 1 else 0) := by
  simp only [World.excess, World.emit, World.liveCount, constructions, destructions,
    List.countP_append, List.countP_cons, List.countP_nil]
  cases e <;> simp [Event.isConstruction, Event.isDestruction] <;> omega

theorem reset_sound {w : World T} (hinv : w.Inv) {this : Nat}
    (hv : (w.objs this).isSome = true) :
    ∃ w', optional.reset this w = Res.ok w' ∧ w'.Inv ∧ w'.excess = w.excess ∧
      w'.objs this = some { is_empty := true, value := none } ∧ w'.next = w.next ∧
      ∀ j, j ≠ this → w'.objs j = w.objs j := by
  obtain ⟨o, hobj⟩ := Option.isSome_iff_exists.mp hv
  have ho := hinv.1 _ _ hobj
  have hlt := lt_next_of_some hinv hv
  obtain ⟨e, v⟩ := o
  cases e <;> cases v <;> simp [Opt.Inv] at ho
  · simp [optional.reset, hobj, destroy_value, set_is_empty]
    refine ⟨inv_setObj hinv (by simp [Opt.Inv]) hv, ?_, fun j hj => setObj_objs_ne _ _ _ _ hj⟩
    simp [excess_emit, excess_setObj _ _ _ hlt, hobj, Event.isConstruction, Event.isDestruction]
  · simp [optional.reset, hobj, set_is_empty]
    refine ⟨inv_setObj hinv (by simp [Opt.Inv]) hv, ?_, fun j hj => setObj_objs_ne _ _ _ _ hj⟩
    simp [excess_setObj _ _ _ hlt, hobj]

theorem emplace_sound (h : Held T A) {w : World T} (hinv : w.Inv) {this : Nat}
    (args : ArgPack A) (hv : (w.objs this).isSome = true) (hargs : args.Valid w this) :
    Res.Sound w (optional.emplace h this args w) ∧
      (h.NoThrow → ∃ w', optional.emplace h this args w = Res.ok w') := by
  obtain ⟨w1, hr, hinv1, hex1, hobj1, hn1, hframe⟩ := reset_sound hinv hv
  have hlt : this < w1.next := hn1 ▸ lt_next_of_some hinv hv
  have hv1 : (w1.objs this).isSome = true := by simp [hobj1]
  cases args with
  | values a =>
    cases hc : h.construct a with
    | none =>
      refine ⟨?_, fun hnt => ?_⟩
      · simp [optional.emplace, hr, new_value_pack, new_value, hobj1, hc, Res.Sound, hinv1,
          hex1]
      · have := hnt.1 a
        simp [hc] at this
    | some v =>
      refine ⟨?_, fun _ => ?_⟩
      · simp [optional.emplace, hr, new_value_pack, new_value, hobj1, hc, Res.Sound,
          set_is_empty]
        refine ⟨inv_setObj hinv1 (by simp [Opt.Inv]) hv1, ?_⟩
        simp [excess_emit, excess_setObj _ _ _ hlt, hobj1, Event.isConstruction,
          Event.isDestruction, hex1]
      · simp [optional.emplace, hr, new_value_pack, new_value, hobj1, hc, set_is_empty]
  | deref src =>
    obtain ⟨hne, hlive⟩ := hargs
    cases hsrc : w.objs src with
    | none => simp [hsrc] at hlive
    | some s =>
      obtain ⟨se, sv⟩ := s
      cases sv with
      | none => simp [hsrc] at hlive
      | some sv =>
        have hsrc1 : w1.objs src = some { is_empty := se, value := some sv } := by
          rw [hframe src hne, hsrc]
        cases hc : h.copyConstruct sv with
        | none =>
          refine ⟨?_, fun hnt => ?_⟩
          · simp [optional.emplace, hr, new_value_pack, new_value_copy, hobj1, hsrc1, hc,
              Res.Sound, hinv1, hex1]
          · have := hnt.2.1 sv
            simp [hc] at this
        | some v =>
          refine ⟨?_, fun _ => ?_⟩
          · simp [optional.emplace, hr, new_value_pack, new_value_copy, hobj1, hsrc1, hc,
              Res.Sound, set_is_empty]
            refine ⟨inv_setObj hinv1 (by simp [Opt.Inv]) hv1, ?_⟩
            simp [excess_emit, excess_setObj _ _ _ hlt, hobj1, Event.isConstruction,
              Event.isDestruction, hex1]
          · simp [optional.emplace, hr, new_value_pack, new_value_copy, hobj1, hsrc1, hc,
              set_is_empty]

theorem dtor_sound {w : World T} (hinv : w.Inv) {this : Nat}
    (hv : (w.objs this).isSome = true) :
    ∃ w', base_destructor.dtor this w = Res.ok w' ∧ w'.Inv ∧ w'.excess = w.excess ∧
      w'.next = w.next ∧ ∀ j, w'.objs j = if j = this then none else w.objs j := by
  obtain ⟨o, hobj⟩ := Option.isSome_iff_exists.mp hv
  have ho := hinv.1 _ _ hobj
  have hlt := lt_next_of_some hinv hv
  obtain ⟨e, v⟩ := o
  cases e <;> cases v <;> simp [Opt.Inv] at ho
  · simp [base_destructor.dtor, hobj, destroy_value]
    refine ⟨inv_free hinv _, ?_, ?_⟩
    · simp [excess_emit, excess_free _ _ hlt, hobj, Event.isConstruction,
        Event.isDestruction]
    · intro j
      rw [free_objs]
  · simp [base_destructor.dtor, hobj]
    refine ⟨inv_free hinv _, ?_, ?_⟩
    · simp [excess_free _ _ hlt, hobj]
    · intro j
      rw [free_objs]

theorem assign_copy_sound (h : Held T A) {w : World T} (hinv : w.Inv) {this copy_class : Nat}
    (hv : (w.objs this).isSome = true) (hv' : (w.objs copy_class).isSome = true) :
    Res.Sound w (base_copy.assign_copy h this copy_class w) ∧
      (h.NoThrow → ∃ w', base_copy.assign_copy h this copy_class w = Res.ok w') := by
  obtain ⟨d, hd⟩ := Option.isSome_iff_exists.mp hv
  obtain ⟨s, hs⟩ := Option.isSome_iff_exists.mp hv'
  have hdi := hinv.1 _ _ hd
  have hsi := hinv.1 _ _ hs
  have hlt := lt_next_of_some hinv hv
  obtain ⟨de, dv⟩ := d
  obtain ⟨se, sv⟩ := s
  by_cases hne : this = copy_class
  · subst hne
    rw [hd] at hs
    cases hs
    cases de <;> cases dv <;> simp [Opt.Inv] at hdi
    · rename_i dv
      cases hc : h.selfCopyAssign dv with
      | none =>
        refine ⟨?_, fun hnt => ?_⟩
        · simp [base_copy.assign_copy, hd, assign_value_copy, hc, Res.Sound, hinv]
        · have := hnt.2.2.2.2.2.1 dv
          simp [hc] at this
      | some v =>
        refine ⟨?_, fun _ => ?_⟩
        · simp [base_copy.assign_copy, hd, assign_value_copy, hc, Res.Sound, copy_is_empty,
            set_is_empty]
          refine ⟨inv_setObj hinv (by simp [Opt.Inv]) hv, ?_⟩
          simp [excess_emit, excess_setObj _ _ _ hlt, hd, Event.isConstruction,
            Event.isDestruction]
        · simp [base_copy.assign_copy, hd, assign_value_copy, hc, copy_is_empty, set_is_empty]
    · refine ⟨?_, fun _ => ?_⟩
      · simp [base_copy.assign_copy, hd, Res.Sound, copy_is_empty, set_is_empty]
        refine ⟨inv_setObj hinv (by simp [Opt.Inv]) hv, ?_⟩
        simp [excess_setObj _ _ _ hlt, hd]
      · simp [base_copy.assign_copy, hd, copy_is_empty, set_is_empty]
  · have hne' : copy_class ≠ this := fun hc => hne hc.symm
    cases de <;> cases dv <;> simp [Opt.Inv] at hdi <;>
      cases se <;> cases sv <;> simp [Opt.Inv] at hsi
    · rename_i dv sv
      cases hc : h.copyAssign dv sv with
      | none =>
        refine ⟨?_, fun hnt => ?_⟩
        · simp [base_copy.assign_copy, hd, hs, assign_value_copy, hne, hc, Res.Sound, hinv]
        · have := hnt.2.2.2.1 dv sv
          simp [hc] at this
      | some v =>
        refine ⟨?_, fun _ => ?_⟩
        · simp [base_copy.assign_copy, hd, hs, assign_value_copy, hne, hc, Res.Sound,
            copy_is_empty, set_is_empty, setObj_objs_ne _ _ _ _ hne']
          refine ⟨inv_setObj hinv (by simp [Opt.Inv]) hv, ?_⟩
          simp [excess_emit, excess_setObj _ _ _ hlt, hd, Event.isConstruction,
            Event.isDestruction]
        · simp [base_copy.assign_copy, hd, hs, assign_value_copy, hne, hc,
            copy_is_empty, set_is_empty, setObj_objs_ne _ _ _ _ hne']
    · refine ⟨?_, fun _ => ?_⟩
      · simp [base_copy.assign_copy, hd, hs, destroy_value, Res.Sound,
          copy_is_empty, set_is_empty, setObj_objs_ne _ _ _ _ hne']
        refine ⟨inv_setObj hinv (by simp [Opt.Inv]) hv, ?_⟩
        simp [excess_emit, excess_setObj _ _ _ hlt, hd, Event.isConstruction,
          Event.isDestruction]
      · simp [base_copy.assign_copy, hd, hs, destroy_value,
          copy_is_empty, set_is_empty, setObj_objs_ne _ _ _ _ hne']
    · rename_i sv
      cases hc : h.copyConstruct sv with
      | none =>
        refine ⟨?_, fun hnt => ?_⟩
        · simp [base_copy.assign_copy, hd, hs, new_value_copy, hc, Res.Sound, hinv]
        · have := hnt.2.1 sv
          simp [hc] at this
      | some v =>
        refine ⟨?_, fun _ => ?_⟩
        · simp [base_copy.assign_copy, hd, hs, new_value_copy, hc, Res.Sound,
            copy_is_empty, set_is_empty, setObj_objs_ne _ _ _ _ hne']
          refine ⟨inv_setObj hinv (by simp [Opt.Inv]) hv, ?_⟩
          simp [excess_emit, excess_setObj _ _ _ hlt, hd, Event.isConstruction,
            Event.isDestruction]
        · simp [base_copy.assign_copy, hd, hs, new_value_copy, hc,
            copy_is_empty, set_is_empty, setObj_objs_ne _ _ _ _ hne']
    · refine ⟨?_, fun _ => ?_⟩
      · simp [base_copy.assign_copy, hd, hs, Res.Sound, copy_is_empty, set_is_empty]
        refine ⟨inv_setObj hinv (by simp [Opt.Inv]) hv, ?_⟩
        simp [excess_setObj _ _ _ hlt, hd]
      · simp [base_copy.assign_copy, hd, hs, copy_is_empty, set_is_empty]

theorem assign_move_sound (h : Held T A) {w : World T} (hinv : w.Inv) {this copy_class : Nat}
    (hv : (w.objs this).isSome = true) (hv' : (w.objs copy_class).isSome = true) :
    Res.Sound w (base_copy.assign_move h this copy_class w) ∧
      (h.NoThrow → ∃ w', base_copy.assign_move h this copy_class w = Res.ok w') := by
  obtain ⟨d, hd⟩ := Option.isSome_iff_exists.mp hv
  obtain ⟨s, hs⟩ := Option.isSome_iff_exists.mp hv'
  have hdi := hinv.1 _ _ hd
  have hsi := hinv.1 _ _ hs
  have hlt := lt_next_of_some hinv hv
  have hlt' := lt_next_of_some hinv hv'
  obtain ⟨de, dv⟩ := d
  obtain ⟨se, sv⟩ := s
  by_cases hne : this = copy_class
  · subst hne
    rw [hd] at hs
    cases hs
    cases de <;> cases dv <;> simp [Opt.Inv] at hdi
    · rename_i dv
      cases hc : h.selfMoveAssign dv with
      | none =>
        refine ⟨?_, fun hnt => ?_⟩
        · simp [base_copy.assign_move, hd, assign_value_move, hc, Res.Sound, hinv]
        · have := hnt.2.2.2.2.2.2 dv
          simp [hc] at this
      | some v =>
        refine ⟨?_, fun _ => ?_⟩
        · simp [base_copy.assign_move, hd, assign_value_move, hc, Res.Sound, copy_is_empty,
            set_is_empty]
          refine ⟨inv_setObj hinv (by simp [Opt.Inv]) hv, ?_⟩
          simp [excess_emit, excess_setObj _ _ _ hlt, hd, Event.isConstruction,
            Event.isDestruction]
        · simp [base_copy.assign_move, hd, assign_value_move, hc, copy_is_empty, set_is_empty]
    · refine ⟨?_, fun _ => ?_⟩
      · simp [base_copy.assign_move, hd, Res.Sound, copy_is_empty, set_is_empty]
        refine ⟨inv_setObj hinv (by simp [Opt.Inv]) hv, ?_⟩
        simp [excess_setObj _ _ _ hlt, hd]
      · simp [base_copy.assign_move, hd, copy_is_empty, set_is_empty]
  · have hne' : copy_class ≠ this := fun hc => hne hc.symm
    cases de <;> cases dv <;> simp [Opt.Inv] at hdi <;>
      cases se <;> cases sv <;> simp [Opt.Inv] at hsi
    · rename_i dv sv
      cases hc : h.moveAssign dv sv with
      | none =>
        refine ⟨?_, fun hnt => ?_⟩
        · simp [base_copy.assign_move, hd, hs, assign_value_move, hne, hc, Res.Sound, hinv]
        · have := hnt.2.2.2.2.1 dv sv
          simp [hc] at this
      | some p =>
        obtain ⟨v, sv'⟩ := p
        have hv2 : ((w.setObj copy_class { is_empty := false, value := some sv' }).objs
            this).isSome = true := by
          simp [setObj_objs_ne _ _ _ _ hne, hd]
        refine ⟨?_, fun _ => ?_⟩
        · simp [base_copy.assign_move, hd, hs, assign_value_move, hne, hc, Res.Sound,
            copy_is_empty, set_is_empty, setObj_objs_ne _ _ _ _ hne']
          refine ⟨inv_setObj (inv_setObj hinv (by simp [Opt.Inv]) hv') (by simp [Opt.Inv]) hv2,
            ?_⟩
          have hlt2 : this < (w.setObj copy_class
              { is_empty := false, value := some sv' }).next := hlt
          simp [excess_emit, excess_setObj _ _ _ hlt2, excess_setObj _ _ _ hlt', hd, hs,
            Event.isConstruction, Event.isDestruction, setObj_objs_ne _ _ _ _ hne]
        · simp [base_copy.assign_move, hd, hs, assign_value_move, hne, hc,
            copy_is_empty, set_is_empty, setObj_objs_ne _ _ _ _ hne']
    · refine ⟨?_, fun _ => ?_⟩
      · simp [base_copy.assign_move, hd, hs, destroy_value, Res.Sound,
          copy_is_empty, set_is_empty, setObj_objs_ne _ _ _ _ hne']
        refine ⟨inv_setObj hinv (by simp [Opt.Inv]) hv, ?_⟩
        simp [excess_emit, excess_setObj _ _ _ hlt, hd, Event.isConstruction,
          Event.isDestruction]
      · simp [base_copy.assign_move, hd, hs, destroy_value,
          copy_is_empty, set_is_empty, setObj_objs_ne _ _ _ _ hne']
    · rename_i sv
      cases hc : h.moveConstruct sv with
      | none =>
        refine ⟨?_, fun hnt => ?_⟩
        · simp [base_copy.assign_move, hd, hs, new_value_move, hc, Res.Sound, hinv]
        · have := hnt.2.2.1 sv
          simp [hc] at this
      | some p =>
        obtain ⟨v, sv'⟩ := p
        have hv2 : ((w.setObj copy_class { is_empty := false, value := some sv' }).objs
            this).isSome = true := by
          simp [setObj_objs_ne _ _ _ _ hne, hd]
        refine ⟨?_, fun _ => ?_⟩
        · simp [base_copy.assign_move, hd, hs, new_value_move, hc, Res.Sound,
            copy_is_empty, set_is_empty, setObj_objs_ne _ _ _ _ hne']
          refine ⟨inv_setObj (inv_setObj hinv (by simp [Opt.Inv]) hv') (by simp [Opt.Inv]) hv2,
            ?_⟩
          have hlt2 : this < (w.setObj copy_class
              { is_empty := false, value := some sv' }).next := hlt
          simp [excess_emit, excess_setObj _ _ _ hlt2, excess_setObj _ _ _ hlt', hd, hs,
            Event.isConstruction, Event.isDestruction, setObj_objs_ne _ _ _ _ hne]
        · simp [base_copy.assign_move, hd, hs, new_value_move, hc,
            copy_is_empty, set_is_empty, setObj_objs_ne _ _ _ _ hne']
    · refine ⟨?_, fun _ => ?_⟩
      · simp [base_copy.assign_move, hd, hs, Res.Sound, copy_is_empty, set_is_empty]
        refine ⟨inv_setObj hinv (by simp [Opt.Inv]) hv, ?_⟩
        simp [excess_setObj _ _ _ hlt, hd]
      · simp [base_copy.assign_move, hd, hs, copy_is_empty, set_is_empty]

theorem ctor_plain_sound {w : World T} (hinv : w.Inv) :
    Res.Sound w (Res.ok (w.alloc ({ is_empty := true, value := none } : Opt T))) := by
  refine ⟨inv_alloc hinv (by simp [Opt.Inv]), ?_⟩
  simp [excess_alloc _ _ (fresh_of_inv hinv)]

theorem ctor_in_place_sound (h : Held T A) {w : World T} (hinv : w.Inv) (args : A) :
    Res.Sound w (base_destructor.ctor_in_place h args w) ∧
      (h.NoThrow → ∃ w', base_destructor.ctor_in_place h args w = Res.ok w') := by
  cases hc : h.construct args with
  | none =>
    refine ⟨?_, fun hnt => ?_⟩
    · simp [base_destructor.ctor_in_place, hc, Res.Sound, hinv]
    · have := hnt.1 args
      simp [hc] at this
  | some v =>
    refine ⟨?_, fun _ => ?_⟩
    · simp [base_destructor.ctor_in_place, hc, Res.Sound]
      refine ⟨inv_alloc hinv (by simp [Opt.Inv]), ?_⟩
      simp [excess_emit, excess_alloc _ _ (fresh_of_inv hinv), Event.isConstruction,
        Event.isDestruction]
    · simp [base_destructor.ctor_in_place, hc]

theorem ctor_value_sound (h : Held T A) {w : World T} (hinv : w.Inv) (value : T) :
    Res.Sound w (optional.ctor_value h value w) ∧
      (h.NoThrow → ∃ w', optional.ctor_value h value w = Res.ok w') := by
  cases hc : h.moveConstruct value with
  | none =>
    refine ⟨?_, fun hnt => ?_⟩
    · simp [optional.ctor_value, hc, Res.Sound, hinv]
    · have := hnt.2.2.1 value
      simp [hc] at this
  | some p =>
    obtain ⟨v, sv'⟩ := p
    refine ⟨?_, fun _ => ?_⟩
    · simp [optional.ctor_value, hc, Res.Sound]
      refine ⟨inv_alloc hinv (by simp [Opt.Inv]), ?_⟩
      simp [excess_emit, excess_alloc _ _ (fresh_of_inv hinv), Event.isConstruction,
        Event.isDestruction]
    · simp [optional.ctor_value, hc]

@[simp]
theorem setObj_alloc_same (w : World T) (a b : Opt T) :
    (w.alloc a).setObj w.next b = w.alloc b := by
  simp [World.setObj, World.alloc]

theorem ctor_copy_sound (h : Held T A) {w : World T} (hinv : w.Inv) {copy_class : Nat}
    (hv : (w.objs copy_class).isSome = true) :
    (Res.Sound w (base_copy.ctor_copy h copy_class w) ∨
        base_copy.ctor_copy h copy_class w = Res.fault Fault.deadDestroy) ∧
      (h.NoThrow → Res.Sound w (base_copy.ctor_copy h copy_class w) ∧
        ∃ w', base_copy.ctor_copy h copy_class w = Res.ok w') := by
  obtain ⟨s, hs⟩ := Option.isSome_iff_exists.mp hv
  have hsi := hinv.1 _ _ hs
  have hfresh := fresh_of_inv hinv
  have hne : copy_class ≠ w.next := ne_next_of_some hs hfresh
  obtain ⟨se, sv⟩ := s
  cases se <;> cases sv <;> simp [Opt.Inv] at hsi
  · rename_i sv
    cases hc : h.copyConstruct sv with
    | none =>
      refine ⟨Or.inr ?_, fun hnt => ?_⟩
      · simp [base_copy.ctor_copy, hs, copy_is_empty, set_is_empty, alloc_objs_ne _ _ _ hne,
          new_value_copy, setObj_objs_ne _ _ _ _ hne, base_destructor.ctor_default, hc,
          unwind_base, base_destructor.dtor, destroy_value]
      · have := hnt.2.1 sv
        simp [hc] at this
    | some v =>
      have hok : base_copy.ctor_copy h copy_class w =
          Res.ok ((w.alloc { is_empty := false, value := some v }).emit
            (Event.copyConstruct w.next)) := by
        simp [base_copy.ctor_copy, hs, copy_is_empty, set_is_empty, alloc_objs_ne _ _ _ hne,
          new_value_copy, base_destructor.ctor_default, hc, unwind_base]
      have hsound : Res.Sound w (base_copy.ctor_copy h copy_class w) := by
        rw [hok]
        refine ⟨inv_alloc hinv (by simp [Opt.Inv]), ?_⟩
        simp [excess_emit, excess_alloc _ _ hfresh, Event.isConstruction, Event.isDestruction]
      exact ⟨Or.inl hsound, fun _ => ⟨hsound, _, hok⟩⟩
  · have hok : base_copy.ctor_copy h copy_class w =
        Res.ok (w.alloc { is_empty := true, value := none }) := by
      simp [base_copy.ctor_copy, hs, base_destructor.ctor_default]
    have hsound : Res.Sound w (base_copy.ctor_copy h copy_class w) := by
      rw [hok]
      exact ctor_plain_sound hinv
    exact ⟨Or.inl hsound, fun _ => ⟨hsound, _, hok⟩⟩

theorem ctor_move_sound (h : Held T A) {w : World T} (hinv : w.Inv) {copy_class : Nat}
    (hv : (w.objs copy_class).isSome = true) :
    (Res.Sound w (base_copy.ctor_move h copy_class w) ∨
        base_copy.ctor_move h copy_class w = Res.fault Fault.deadDestroy) ∧
      (h.NoThrow → Res.Sound w (base_copy.ctor_move h copy_class w) ∧
        ∃ w', base_copy.ctor_move h copy_class w = Res.ok w') := by
  obtain ⟨s, hs⟩ := Option.isSome_iff_exists.mp hv
  have hsi := hinv.1 _ _ hs
  have hfresh := fresh_of_inv hinv
  have hne : copy_class ≠ w.next := ne_next_of_some hs hfresh
  have hne' : w.next ≠ copy_class := fun hc => hne hc.symm
  have hlt := lt_next_of_some hinv hv
  obtain ⟨se, sv⟩ := s
  cases se <;> cases sv <;> simp [Opt.Inv] at hsi
  · rename_i sv
    cases hc : h.moveConstruct sv with
    | none =>
      refine ⟨Or.inr ?_, fun hnt => ?_⟩
      · simp [base_copy.ctor_move, hs, copy_is_empty, set_is_empty, alloc_objs_ne _ _ _ hne,
          new_value_move, setObj_objs_ne _ _ _ _ hne, base_destructor.ctor_default, hc,
          unwind_base, base_destructor.dtor, destroy_value]
      · have := hnt.2.2.1 sv
        simp [hc] at this
    | some p =>
      obtain ⟨v, sv'⟩ := p
      have hok : base_copy.ctor_move h copy_class w =
          Res.ok ((((w.alloc { is_empty := false, value := none }).setObj copy_class
            { is_empty := false, value := some sv' }).setObj w.next
            { is_empty := false, value := some v }).emit (Event.moveConstruct w.next)) := by
        simp [base_copy.ctor_move, hs, copy_is_empty, set_is_empty, alloc_objs_ne _ _ _ hne,
          new_value_move, base_destructor.ctor_default, hc, unwind_base]
      have hsound : Res.Sound w (base_copy.ctor_move h copy_class w) := by
        rw [hok]
        have ha : (w.alloc ({ is_empty := false, value := none } : Opt T)).objs copy_class =
            some { is_empty := false, value := some sv } := by
          rw [alloc_objs_ne _ _ _ hne, hs]
        refine ⟨?_, ?_⟩
        · refine ⟨fun j o hj => ?_, fun j hj => ?_⟩
          · simp only [emit_objs, setObj_objs] at hj
            split at hj
            · cases hj
              simp [Opt.Inv]
            · split at hj
              · cases hj
                simp [Opt.Inv]
              · rename_i hj1 hj2
                rw [alloc_objs_ne _ _ _ hj1] at hj
                exact hinv.1 j o hj
          · simp only [emit_next, setObj_next, alloc_next] at hj
            have h1 : j ≠ w.next := by omega
            have h2 : j ≠ copy_class := by omega
            simp only [emit_objs, setObj_objs_ne _ _ _ _ h1, setObj_objs_ne _ _ _ _ h2,
              alloc_objs_ne _ _ _ h1]
            exact hinv.2 j (by omega)
        · have hlt1 : copy_class < (w.alloc ({ is_empty := false, value := none } : Opt T)).next :=
            Nat.lt_succ_of_lt hlt
          have hlt2 : w.next < ((w.alloc ({ is_empty := false, value := none } : Opt T)).setObj
              copy_class { is_empty := false, value := some sv' }).next := Nat.lt_succ_self _
          simp [excess_emit, excess_setObj _ _ _ hlt2, excess_setObj _ _ _ hlt1, ha,
            excess_alloc _ _ hfresh, setObj_objs_ne _ _ _ _ hne', Event.isConstruction,
            Event.isDestruction]
      exact ⟨Or.inl hsound, fun _ => ⟨hsound, _, hok⟩⟩
  · have hok : base_copy.ctor_move h copy_class w =
        Res.ok (w.alloc { is_empty := true, value := none }) := by
      simp [base_copy.ctor_move, hs, base_destructor.ctor_default]
    have hsound : Res.Sound w (base_copy.ctor_move h copy_class w) := by
      rw [hok]
      exact ctor_plain_sound hinv
    exact ⟨Or.inl hsound, fun _ => ⟨hsound, _, hok⟩⟩

theorem step_sound (h : Held T A) {w : World T} (op : Op T A) (hinv : w.Inv)
    (hvalid : op.Valid w) :
    (Res.Sound w (step h op w) ∨
        (step h op w = Res.fault Fault.deadDestroy ∧ op.isCopyOrMoveCtor = true)) ∧
      (h.NoThrow → Res.Sound w (step h op w) ∧ ∃ w', step h op w = Res.ok w') := by
  cases op with
  | ctor_default =>
    exact ⟨Or.inl (ctor_plain_sound hinv), fun _ => ⟨ctor_plain_sound hinv, _, rfl⟩⟩
  | ctor_nullopt =>
    exact ⟨Or.inl (ctor_plain_sound hinv), fun _ => ⟨ctor_plain_sound hinv, _, rfl⟩⟩
  | ctor_in_place args =>
    have := ctor_in_place_sound h hinv args
    exact ⟨Or.inl this.1, fun hnt => ⟨this.1, this.2 hnt⟩⟩
  | ctor_value v =>
    have := ctor_value_sound h hinv v
    exact ⟨Or.inl this.1, fun hnt => ⟨this.1, this.2 hnt⟩⟩
  | ctor_copy src =>
    have := ctor_copy_sound h hinv hvalid
    exact ⟨this.1.imp id (fun hf => ⟨hf, rfl⟩), this.2⟩
  | ctor_move src =>
    have := ctor_move_sound h hinv hvalid
    exact ⟨this.1.imp id (fun hf => ⟨hf, rfl⟩), this.2⟩
  | emplace this args =>
    have := emplace_sound h hinv args hvalid.1 hvalid.2
    exact ⟨Or.inl this.1, fun hnt => ⟨this.1, this.2 hnt⟩⟩
  | reset this =>
    obtain ⟨w', hr, hi, he, _⟩ := reset_sound hinv hvalid
    have hs : Res.Sound w (step h (Op.reset this) w) := by
      simp only [step, hr]
      exact ⟨hi, he⟩
    exact ⟨Or.inl hs, fun _ => ⟨hs, w', hr⟩⟩
  | assign_nullopt this =>
    obtain ⟨w', hr, hi, he, _⟩ := reset_sound hinv hvalid
    have hs : Res.Sound w (step h (Op.assign_nullopt this) w) := by
      simp only [step, optional.assign_nullopt, hr]
      exact ⟨hi, he⟩
    exact ⟨Or.inl hs, fun _ => ⟨hs, w', hr⟩⟩
  | assign_copy this src =>
    have := assign_copy_sound h hinv hvalid.1 hvalid.2
    exact ⟨Or.inl this.1, fun hnt => ⟨this.1, this.2 hnt⟩⟩
  | assign_move this src =>
    have := assign_move_sound h hinv hvalid.1 hvalid.2
    exact ⟨Or.inl this.1, fun hnt => ⟨this.1, this.2 hnt⟩⟩
  | dtor this =>
    obtain ⟨w', hr, hi, he, _⟩ := dtor_sound hinv hvalid
    have hs : Res.Sound w (step h (Op.dtor this) w) := by
      simp only [step, hr]
      exact ⟨hi, he⟩
    exact ⟨Or.inl hs, fun _ => ⟨hs, w', hr⟩⟩

theorem run_total (h : Held T A) (hnt : h.NoThrow) (ops : List (Op T A)) :
    ∀ w : World T, w.Inv → ValidRun h ops w → ∃ w', run h ops w = Res.ok w' := by
  induction ops with
  | nil =>
    intro w _ _
    exact ⟨w, rfl⟩
  | cons op ops ih =>
    intro w hinv hv
    obtain ⟨hvalid, hrest⟩ := hv
    obtain ⟨hs, w1, hr⟩ := (step_sound h op hinv hvalid).2 hnt
    rw [hr] at hs hrest
    obtain ⟨w', hr'⟩ := ih w1 hs.1 hrest
    exact ⟨w', by simp only [run, hr, andThen_ok, hr']⟩

/-- Claim C1, a defect of the header: copy and move construction from a present source
write `is_empty = false` before the placement new, so the new instance has its flag
saying present while its slot holds no `T`; when the constructor of `T` then throws,
`~base_destructor()` unwinds the instance in that state and runs `~T()` on a slot in
which no `T` was ever constructed.  The constructors do not establish "flag present iff
slot live" on this path, while the assignment operators, which write the flag after the
placement new, leave the flag empty when the same constructor throws. -/
theorem ctor_throw_runs_dtor_on_dead_slot (h : Held T A) (w : World T) (copy_class : Nat)
    (s : Opt T) (sv : T) (hs : w.objs copy_class = some s) (hflag : s.is_empty = false)
    (hval : s.value = some sv) (hfresh : w.objs w.next = none) :
    (∃ w1, copy_is_empty w.next copy_class (w.alloc base_destructor.ctor_default) = Res.ok w1 ∧
      w1.objs w.next = some { is_empty := false, value := none } ∧
      ¬ ({ is_empty := false, value := none } : Opt T).Inv) ∧
    (h.copyConstruct sv = none →
      base_copy.ctor_copy h copy_class w = Res.fault Fault.deadDestroy) ∧
    (h.moveConstruct sv = none →
      base_copy.ctor_move h copy_class w = Res.fault Fault.deadDestroy) := by
  have hne : copy_class ≠ w.next := ne_next_of_some hs hfresh
  obtain ⟨se, sv0⟩ := s
  simp only at hflag hval
  subst hflag hval
  refine ⟨?_, fun hc => ?_, fun hc => ?_⟩
  · simp [copy_is_empty, set_is_empty, alloc_objs_ne _ _ _ hne, hs,
      base_destructor.ctor_default, Opt.Inv]
  · simp [base_copy.ctor_copy, hs, copy_is_empty, set_is_empty, alloc_objs_ne _ _ _ hne,
      new_value_copy, setObj_objs_ne _ _ _ _ hne, base_destructor.ctor_default, hc,
      unwind_base, base_destructor.dtor, destroy_value]
  · simp [base_copy.ctor_move, hs, copy_is_empty, set_is_empty, alloc_objs_ne _ _ _ hne,
      new_value_move, setObj_objs_ne _ _ _ _ hne, base_destructor.ctor_default, hc,
      unwind_base, base_destructor.dtor, destroy_value]

/-- Evaluation for C1 at the failing input: in `world01` the instance holding `7` is
copied for a held type whose copy constructor throws, and moved for one whose move
constructor throws. -/
theorem ctor_throw_runs_dtor_on_dead_slot_witness :
    base_copy.ctor_copy throwingCopyHeld 1 world01 = Res.fault Fault.deadDestroy ∧
      base_copy.ctor_move throwingMoveHeld 1 world01 = Res.fault Fault.deadDestroy :=
  ⟨(ctor_throw_runs_dtor_on_dead_slot throwingCopyHeld world01 1
      { is_empty := false, value := some 7 } 7 rfl rfl rfl rfl).2.1 rfl,
    (ctor_throw_runs_dtor_on_dead_slot throwingMoveHeld world01 1
      { is_empty := false, value := some 7 } 7 rfl rfl rfl rfl).2.2 rfl⟩

/-- Claim C2: copy assignment `dst = src` between two distinct instances follows the
four-case table: (empty, empty) changes nothing and performs no `T` operation; (empty,
present) copy-constructs the value of `src` into `dst`, which becomes present; (present,
empty) destroys the value of `dst` exactly once and `dst` becomes empty; (present,
present) applies the copy assignment of `T` exactly once, with no construction or
destruction, and `dst` stays present; whenever the call returns, the flag of `dst`
equals the flag of `src`. -/
theorem assign_copy_four_cases (h : Held T A) (w : World T) (this copy_class : Nat) (d s : Opt T)
    (hne : this ≠ copy_class) (hd : w.objs this = some d) (hs : w.objs copy_class = some s)
    (hdi : d.Inv) (hsi : s.Inv) :
    (d.is_empty = true → s.is_empty = true →
      base_copy.assign_copy h this copy_class w = Res.ok w) ∧
    (d.is_empty = true → ∀ sv v, s.value = some sv → h.copyConstruct sv = some v →
      ∃ w', base_copy.assign_copy h this copy_class w = Res.ok w' ∧
        w'.objs this = some { is_empty := false, value := some v } ∧
        w'.log = w.log ++ [Event.copyConstruct this] ∧
        w'.next = w.next ∧ ∀ j, j ≠ this → w'.objs j = w.objs j) ∧
    (d.is_empty = false → s.is_empty = true →
      ∃ w', base_copy.assign_copy h this copy_class w = Res.ok w' ∧
        w'.objs this = some { is_empty := true, value := none } ∧
        w'.log = w.log ++ [Event.destroy this] ∧
        w'.next = w.next ∧ ∀ j, j ≠ this → w'.objs j = w.objs j) ∧
    (∀ dv sv v, d.value = some dv → s.value = some sv → h.copyAssign dv sv = some v →
      ∃ w', base_copy.assign_copy h this copy_class w = Res.ok w' ∧
        w'.objs this = some { is_empty := false, value := some v } ∧
        w'.log = w.log ++ [Event.copyAssign this] ∧
        w'.next = w.next ∧ ∀ j, j ≠ this → w'.objs j = w.objs j) ∧
    (∀ w', base_copy.assign_copy h this copy_class w = Res.ok w' →
      ∃ d', w'.objs this = some d' ∧ d'.is_empty = s.is_empty) := by
  have hne' : copy_class ≠ this := fun hc => hne hc.symm
  obtain ⟨de, dv⟩ := d
  obtain ⟨se, sv⟩ := s
  cases de <;> cases dv <;> simp [Opt.Inv] at hdi <;>
    cases se <;> cases sv <;> simp [Opt.Inv] at hsi
  · refine ⟨by simp, by simp, by simp, ?_, ?_⟩
    · intro dv sv v hdv hsv hv
      simp at hdv hsv
      subst hdv hsv
      simp [base_copy.assign_copy, hd, hs, assign_value_copy, hne, hv, copy_is_empty,
        set_is_empty, setObj_objs_ne _ _ _ _ hne']
      intro j hj
      simp [setObj_objs_ne _ _ _ _ hj]
    · intro w' hw'
      simp [base_copy.assign_copy, hd, hs, assign_value_copy, hne] at hw'
      split at hw'
      · simp at hw'
      · simp [copy_is_empty, set_is_empty, setObj_objs_ne _ _ _ _ hne', hs] at hw'
        subst hw'
        simp
  · refine ⟨by simp, by simp, ?_, by simp, ?_⟩
    · intro _ _
      simp [base_copy.assign_copy, hd, hs, destroy_value, copy_is_empty,
        set_is_empty, setObj_objs_ne _ _ _ _ hne']
      intro j hj
      simp [setObj_objs_ne _ _ _ _ hj]
    · intro w' hw'
      simp [base_copy.assign_copy, hd, hs, destroy_value, copy_is_empty,
        set_is_empty, setObj_objs_ne _ _ _ _ hne'] at hw'
      subst hw'
      simp
  · refine ⟨by simp, ?_, by simp, by simp, ?_⟩
    · intro _ sv v hsv hv
      simp at hsv
      subst hsv
      simp [base_copy.assign_copy, hd, hs, new_value_copy, hv, copy_is_empty,
        set_is_empty, setObj_objs_ne _ _ _ _ hne']
      intro j hj
      simp [setObj_objs_ne _ _ _ _ hj]
    · intro w' hw'
      simp [base_copy.assign_copy, hd, hs, new_value_copy] at hw'
      split at hw'
      · simp at hw'
      · simp [copy_is_empty, set_is_empty, setObj_objs_ne _ _ _ _ hne', hs] at hw'
        subst hw'
        simp
  · have hself : base_copy.assign_copy h this copy_class w = Res.ok w := by
      simp [base_copy.assign_copy, hd, hs, copy_is_empty, set_is_empty]
      exact setObj_self _ _ _ hd
    refine ⟨fun _ _ => hself, by simp, by simp, by simp, ?_⟩
    intro w' hw'
    rw [hself] at hw'
    cases hw'
    exact ⟨_, hd, rfl⟩

/-- Witness for C2: the empty instance `0` of `world01` is assigned the instance `1`. -/
theorem assign_copy_four_cases_witness :
    ∃ w', base_copy.assign_copy natHeld 0 1 world01 = Res.ok w' ∧
      w'.objs 0 = some { is_empty := false, value := some 7 } ∧
      w'.log = [Event.copyConstruct 0] := by
  obtain ⟨w', h1, h2, h3, _⟩ :=
    (assign_copy_four_cases natHeld world01 0 1 { is_empty := true, value := none }
      { is_empty := false, value := some 7 } (by decide) rfl rfl (by decide)
      (by decide)).2.1 rfl 7 7 rfl rfl
  exact ⟨w', h1, h2, h3⟩

/-- Claim C3: move assignment has the four-case structure of copy assignment: with an
empty source it is the very same transition as copy assignment, in (empty, present) the
value of `dst` is move-constructed from the value of `src`, in (present, present) the
move assignment of `T` is applied once; the source keeps its flag and is left with the
moved-from content; whenever the call returns, the flag of `dst` equals that of `src`. -/
theorem assign_move_four_cases (h : Held T A) (w : World T) (this copy_class : Nat) (d s : Opt T)
    (hne : this ≠ copy_class) (hd : w.objs this = some d) (hs : w.objs copy_class = some s)
    (hdi : d.Inv) (hsi : s.Inv) :
    (s.is_empty = true →
      base_copy.assign_move h this copy_class w = base_copy.assign_copy h this copy_class w) ∧
    (d.is_empty = true → s.is_empty = true →
      base_copy.assign_move h this copy_class w = Res.ok w) ∧
    (d.is_empty = true → ∀ sv v sv', s.value = some sv → h.moveConstruct sv = some (v, sv') →
      ∃ w', base_copy.assign_move h this copy_class w = Res.ok w' ∧
        w'.objs this = some { is_empty := false, value := some v } ∧
        w'.objs copy_class = some { is_empty := false, value := some sv' } ∧
        w'.log = w.log ++ [Event.moveConstruct this] ∧
        w'.next = w.next ∧ ∀ j, j ≠ this → j ≠ copy_class → w'.objs j = w.objs j) ∧
    (d.is_empty = false → s.is_empty = true →
      ∃ w', base_copy.assign_move h this copy_class w = Res.ok w' ∧
        w'.objs this = some { is_empty := true, value := none } ∧
        w'.log = w.log ++ [Event.destroy this] ∧
        w'.next = w.next ∧ ∀ j, j ≠ this → w'.objs j = w.objs j) ∧
    (∀ dv sv v sv', d.value = some dv → s.value = some sv →
      h.moveAssign dv sv = some (v, sv') →
      ∃ w', base_copy.assign_move h this copy_class w = Res.ok w' ∧
        w'.objs this = some { is_empty := false, value := some v } ∧
        w'.objs copy_class = some { is_empty := false, value := some sv' } ∧
        w'.log = w.log ++ [Event.moveAssign this] ∧
        w'.next = w.next ∧ ∀ j, j ≠ this → j ≠ copy_class → w'.objs j = w.objs j) ∧
    (∀ w', base_copy.assign_move h this copy_class w = Res.ok w' →
      ∃ d', w'.objs this = some d' ∧ d'.is_empty = s.is_empty) := by
  have hne' : copy_class ≠ this := fun hc => hne hc.symm
  obtain ⟨de, dv⟩ := d
  obtain ⟨se, sv⟩ := s
  cases de <;> cases dv <;> simp [Opt.Inv] at hdi <;>
    cases se <;> cases sv <;> simp [Opt.Inv] at hsi
  · refine ⟨by simp, by simp, by simp, by simp, ?_, ?_⟩
    · intro dv sv v sv' hdv hsv hv
      simp at hdv hsv
      subst hdv hsv
      simp [base_copy.assign_move, hd, hs, assign_value_move, hne, hv, copy_is_empty,
        set_is_empty, setObj_objs_ne _ _ _ _ hne']
      intro j hj hj'
      simp [setObj_objs_ne _ _ _ _ hj, setObj_objs_ne _ _ _ _ hj']
    · intro w' hw'
      simp [base_copy.assign_move, hd, hs, assign_value_move, hne] at hw'
      split at hw'
      · simp at hw'
      · simp [copy_is_empty, set_is_empty, setObj_objs_ne _ _ _ _ hne', hs] at hw'
        subst hw'
        simp
  · refine ⟨?_, by simp, by simp, ?_, by simp, ?_⟩
    · intro _
      simp [base_copy.assign_move, base_copy.assign_copy, hd, hs]
    · intro _ _
      simp [base_copy.assign_move, hd, hs, destroy_value, copy_is_empty,
        set_is_empty, setObj_objs_ne _ _ _ _ hne']
      intro j hj
      simp [setObj_objs_ne _ _ _ _ hj]
    · intro w' hw'
      simp [base_copy.assign_move, hd, hs, destroy_value, copy_is_empty,
        set_is_empty, setObj_objs_ne _ _ _ _ hne'] at hw'
      subst hw'
      simp
  · refine ⟨by simp, by simp, ?_, by simp, by simp, ?_⟩
    · intro _ sv v sv' hsv hv
      simp at hsv
      subst hsv
      simp [base_copy.assign_move, hd, hs, new_value_move, hv, copy_is_empty,
        set_is_empty, setObj_objs_ne _ _ _ _ hne']
      intro j hj hj'
      simp [setObj_objs_ne _ _ _ _ hj, setObj_objs_ne _ _ _ _ hj']
    · intro w' hw'
      simp [base_copy.assign_move, hd, hs, new_value_move] at hw'
      split at hw'
      · simp at hw'
      · simp [copy_is_empty, set_is_empty, setObj_objs_ne _ _ _ _ hne', hs] at hw'
        subst hw'
        simp
  · have hself : base_copy.assign_move h this copy_class w = Res.ok w := by
      simp [base_copy.assign_move, hd, hs, copy_is_empty, set_is_empty]
      exact setObj_self _ _ _ hd
    refine ⟨?_, fun _ _ => hself, by simp, by simp, by simp, ?_⟩
    · intro _
      simp [base_copy.assign_move, base_copy.assign_copy, hd, hs]
    · intro w' hw'
      rw [hself] at hw'
      cases hw'
      exact ⟨_, hd, rfl⟩

/-- Witness for C3: the empty instance `0` of `world01` is move-assigned the instance `1`. -/
theorem assign_move_four_cases_witness :
    ∃ w', base_copy.assign_move natHeld 0 1 world01 = Res.ok w' ∧
      w'.objs 0 = some { is_empty := false, value := some 7 } ∧
      w'.objs 1 = some { is_empty := false, value := some 0 } ∧
      w'.log = [Event.moveConstruct 0] := by
  obtain ⟨w', h1, h2, h3, h4, _⟩ :=
    (assign_move_four_cases natHeld world01 0 1 { is_empty := true, value := none }
      { is_empty := false, value := some 7 } (by decide) rfl rfl (by decide)
      (by decide)).2.2.1 rfl 7 7 0 rfl rfl
  exact ⟨w', h1, h2, h3, h4⟩

/-- Claim C4: copy construction builds a destination that is present exactly when the
source is; from a present source it performs exactly one `T` construction, the copy
construction from the value of the source; from an empty source the destination is
empty and no `T` is constructed; the source is not changed. -/
theorem ctor_copy_spec (h : Held T A) (w : World T) (copy_class : Nat) (s : Opt T)
    (hs : w.objs copy_class = some s) (hsi : s.Inv) (hfresh : w.objs w.next = none) :
    (s.is_empty = true →
      ∃ w', base_copy.ctor_copy h copy_class w = Res.ok w' ∧
        w'.objs w.next = some { is_empty := true, value := none } ∧
        w'.log = w.log ∧
        w'.next = w.next + 1 ∧ ∀ j, j ≠ w.next → w'.objs j = w.objs j) ∧
    (∀ sv v, s.value = some sv → h.copyConstruct sv = some v →
      ∃ w', base_copy.ctor_copy h copy_class w = Res.ok w' ∧
        w'.objs w.next = some { is_empty := false, value := some v } ∧
        w'.log = w.log ++ [Event.copyConstruct w.next] ∧
        w'.next = w.next + 1 ∧ ∀ j, j ≠ w.next → w'.objs j = w.objs j) ∧
    (∀ w', base_copy.ctor_copy h copy_class w = Res.ok w' →
      ∃ d, w'.objs w.next = some d ∧
        (optional.operator_bool d = true ↔ optional.operator_bool s = true)) := by
  have hne : copy_class ≠ w.next := ne_next_of_some hs hfresh
  obtain ⟨se, sv⟩ := s
  cases se <;> cases sv <;> simp [Opt.Inv] at hsi
  · refine ⟨by simp, ?_, ?_⟩
    · intro sv v hsv hv
      simp at hsv
      subst hsv
      simp [base_copy.ctor_copy, hs, copy_is_empty, set_is_empty, alloc_objs_ne _ _ _ hne,
        new_value_copy, setObj_objs_ne _ _ _ _ hne, base_destructor.ctor_default, hv,
        unwind_base]
      intro j hj
      simp [setObj_objs_ne _ _ _ _ hj, alloc_objs_ne _ _ _ hj]
    · intro w' hw'
      simp [base_copy.ctor_copy, hs, copy_is_empty, set_is_empty, alloc_objs_ne _ _ _ hne,
        new_value_copy, setObj_objs_ne _ _ _ _ hne, base_destructor.ctor_default] at hw'
      split at hw'
      · simp [unwind_base, base_destructor.dtor, destroy_value] at hw'
      · simp [unwind_base] at hw'
        subst hw'
        simp [optional.operator_bool]
  · refine ⟨?_, by simp, ?_⟩
    · intro _
      simp [base_copy.ctor_copy, hs, base_destructor.ctor_default]
      intro j hj
      simp [alloc_objs_ne _ _ _ hj]
    · intro w' hw'
      simp [base_copy.ctor_copy, hs, base_destructor.ctor_default] at hw'
      subst hw'
      simp [optional.operator_bool]

/-- Witness for C4: a copy of the instance `1` of `world01` is constructed at address `2`. -/
theorem ctor_copy_spec_witness :
    ∃ w', base_copy.ctor_copy natHeld 1 world01 = Res.ok w' ∧
      w'.objs 2 = some { is_empty := false, value := some 7 } ∧
      w'.log = [Event.copyConstruct 2] := by
  obtain ⟨w', h1, h2, h3, _⟩ :=
    (ctor_copy_spec natHeld world01 1 { is_empty := false, value := some 7 } rfl
      (by decide) rfl).2.1 7 7 rfl rfl
  exact ⟨w', h1, h2, h3⟩

/-- Claim C5: move construction leaves the presence flag of the source as it was (a
present source stays present, holding the moved-from content), and the destination is
present exactly when the source was, holding the value move-constructed from the value
of the source. -/
theorem ctor_move_leaves_source_flag (h : Held T A) (w : World T) (copy_class : Nat) (s : Opt T)
    (hs : w.objs copy_class = some s) (hsi : s.Inv) (hfresh : w.objs w.next = none) :
    (s.is_empty = true →
      ∃ w', base_copy.ctor_move h copy_class w = Res.ok w' ∧
        w'.objs w.next = some { is_empty := true, value := none } ∧
        w'.objs copy_class = some s ∧
        w'.log = w.log ∧
        w'.next = w.next + 1 ∧ ∀ j, j ≠ w.next → w'.objs j = w.objs j) ∧
    (∀ sv v sv', s.value = some sv → h.moveConstruct sv = some (v, sv') →
      ∃ w', base_copy.ctor_move h copy_class w = Res.ok w' ∧
        w'.objs w.next = some { is_empty := false, value := some v } ∧
        w'.objs copy_class = some { is_empty := false, value := some sv' } ∧
        w'.log = w.log ++ [Event.moveConstruct w.next] ∧
        w'.next = w.next + 1 ∧
        ∀ j, j ≠ w.next → j ≠ copy_class → w'.objs j = w.objs j) ∧
    (∀ w', base_copy.ctor_move h copy_class w = Res.ok w' →
      ∃ d s', w'.objs w.next = some d ∧ w'.objs copy_class = some s' ∧
        s'.is_empty = s.is_empty ∧
        (optional.operator_bool d = true ↔ optional.operator_bool s = true)) := by
  have hne : copy_class ≠ w.next := ne_next_of_some hs hfresh
  obtain ⟨se, sv⟩ := s
  cases se <;> cases sv <;> simp [Opt.Inv] at hsi
  · refine ⟨by simp, ?_, ?_⟩
    · intro sv v sv' hsv hv
      simp at hsv
      subst hsv
      simp [base_copy.ctor_move, hs, copy_is_empty, set_is_empty, alloc_objs_ne _ _ _ hne,
        new_value_move, setObj_objs_ne _ _ _ _ hne, base_destructor.ctor_default, hv,
        unwind_base]
      intro j hj hj'
      simp [setObj_objs_ne _ _ _ _ hj, setObj_objs_ne _ _ _ _ hj', alloc_objs_ne _ _ _ hj]
    · intro w' hw'
      simp [base_copy.ctor_move, hs, copy_is_empty, set_is_empty, alloc_objs_ne _ _ _ hne,
        new_value_move, setObj_objs_ne _ _ _ _ hne, base_destructor.ctor_default] at hw'
      split at hw'
      · simp [unwind_base, base_destructor.dtor, destroy_value] at hw'
      · simp [unwind_base] at hw'
        subst hw'
        simp [optional.operator_bool, setObj_objs_ne _ _ _ _ hne]
  · refine ⟨?_, by simp, ?_⟩
    · intro _
      simp [base_copy.ctor_move, hs, base_destructor.ctor_default, alloc_objs_ne _ _ _ hne]
      intro j hj
      simp [alloc_objs_ne _ _ _ hj]
    · intro w' hw'
      simp [base_copy.ctor_move, hs, base_destructor.ctor_default] at hw'
      subst hw'
      simp [optional.operator_bool, alloc_objs_ne _ _ _ hne, hs]

/-- Witness for C5: the instance `1` of `world01` is moved into a new instance at `2`. -/
theorem ctor_move_leaves_source_flag_witness :
    ∃ w', base_copy.ctor_move natHeld 1 world01 = Res.ok w' ∧
      w'.objs 2 = some { is_empty := false, value := some 7 } ∧
      w'.objs 1 = some { is_empty := false, value := some 0 } := by
  obtain ⟨w', h1, h2, h3, _⟩ :=
    (ctor_move_leaves_source_flag natHeld world01 1 { is_empty := false, value := some 7 } rfl
      (by decide) rfl).2.1 7 7 0 rfl rfl
  exact ⟨w', h1, h2, h3⟩

/-- Counterexample to C6 as stated: `x.emplace(*x)` on an optional holding `7`, for a
held type whose copy constructor succeeds on every value: `reset()` destroys the value
and the constructor of `T` then reads the destroyed object. -/
theorem emplace_own_value_reads_destroyed :
    world01.objs 1 = some { is_empty := false, value := some 7 } ∧
    (∀ v, natHeld.copyConstruct v = some v) ∧
    optional.emplace natHeld 1 (ArgPack.deref 1) world01 = Res.fault Fault.deadRead :=
  ⟨rfl, fun _ => rfl, rfl⟩

/-- Claim C6, amended: for every argument list that does not refer to the optional's own
contained value (objects outside every optional, or the live value of another optional)
and on which the constructor of `T` succeeds, `emplace(args...)` returns with the
optional present and holding `T(args...)`; if it was present the old value is destroyed
exactly once and before the construction, if it was empty nothing is destroyed. -/
theorem emplace_success_spec (h : Held T A) (w : World T) (this : Nat) (o : Opt T)
    (hobj : w.objs this = some o) (hinv : o.Inv) :
    (∀ (args : A) (v : T), h.construct args = some v →
      ∃ w', optional.emplace h this (ArgPack.values args) w = Res.ok w' ∧
        w'.objs this = some { is_empty := false, value := some v } ∧
        w'.log = w.log ++ (if o.is_empty then [] else [Event.destroy this]) ++
          [Event.construct this] ∧
        w'.next = w.next ∧ ∀ j, j ≠ this → w'.objs j = w.objs j) ∧
    (∀ (src : Nat) (s : Opt T) (sv v : T), src ≠ this → w.objs src = some s →
      s.value = some sv → h.copyConstruct sv = some v →
      ∃ w', optional.emplace h this (ArgPack.deref src) w = Res.ok w' ∧
        w'.objs this = some { is_empty := false, value := some v } ∧
        w'.log = w.log ++ (if o.is_empty then [] else [Event.destroy this]) ++
          [Event.copyConstruct this] ∧
        w'.next = w.next ∧ ∀ j, j ≠ this → w'.objs j = w.objs j) := by
  obtain ⟨e, ov⟩ := o
  constructor
  · intro args v hctor
    cases e <;> cases ov <;> simp [Opt.Inv] at hinv <;>
      simp [optional.emplace, optional.reset, hobj, destroy_value, set_is_empty,
        new_value_pack, new_value, hctor] <;>
      intro j hj <;> simp [setObj_objs_ne _ _ _ _ hj]
  · intro src s sv v hne hsrc hsv hctor
    obtain ⟨se, sv0⟩ := s
    simp only at hsv
    subst hsv
    cases e <;> cases ov <;> simp [Opt.Inv] at hinv <;>
      simp [optional.emplace, optional.reset, hobj, destroy_value, set_is_empty,
        new_value_pack, new_value_copy, setObj_objs_ne _ _ _ _ hne, hsrc, hctor] <;>
      intro j hj <;> simp [setObj_objs_ne _ _ _ _ hj]

/-- Witness for C6 amended: `emplace(9)` on the instance of `world01` that holds `7`. -/
theorem emplace_success_spec_witness :
    ∃ w', optional.emplace natHeld 1 (ArgPack.values 9) world01 = Res.ok w' ∧
      w'.objs 1 = some { is_empty := false, value := some 9 } ∧
      w'.log = [Event.destroy 1, Event.construct 1] := by
  obtain ⟨w', h1, h2, h3, _⟩ :=
    (emplace_success_spec natHeld world01 1 { is_empty := false, value := some 7 } rfl
      (by decide)).1 9 9 rfl
  exact ⟨w', h1, h2, h3⟩

/-- Claim C7: when the constructor of `T` throws during `emplace(args...)`, the
exception reaches the caller and the optional is left empty: its flag reads empty, its
slot holds no `T`, and the prior value, if any, has been destroyed exactly once; and
whatever the arguments refer to, an `emplace` that ends by an exception leaves the
optional in that state. -/
theorem emplace_failure_leaves_empty (h : Held T A) (w : World T) (this : Nat) (o : Opt T)
    (args : A) (hobj : w.objs this = some o) (hinv : o.Inv)
    (hctor : h.construct args = none) :
    (∃ w', optional.emplace h this (ArgPack.values args) w = Res.threw w' ∧
      w'.objs this = some { is_empty := true, value := none } ∧
      w'.log = w.log ++ (if o.is_empty then [] else [Event.destroy this]) ∧
      w'.next = w.next ∧ ∀ j, j ≠ this → w'.objs j = w.objs j) ∧
    (∀ (pack : ArgPack A) (w' : World T), optional.emplace h this pack w = Res.threw w' →
      w'.objs this = some { is_empty := true, value := none } ∧
      w'.log = w.log ++ (if o.is_empty then [] else [Event.destroy this]) ∧
      w'.next = w.next ∧ ∀ j, j ≠ this → w'.objs j = w.objs j) := by
  obtain ⟨e, ov⟩ := o
  constructor
  · cases e <;> cases ov <;> simp [Opt.Inv] at hinv <;>
      simp [optional.emplace, optional.reset, hobj, destroy_value, set_is_empty,
        new_value_pack, new_value, hctor] <;>
      intro j hj <;> simp [setObj_objs_ne _ _ _ _ hj]
  · intro pack w' hthrew
    have hreset : ∃ w1, optional.reset this w = Res.ok w1 ∧
        w1.objs this = some { is_empty := true, value := none } ∧
        w1.log = w.log ++ (if e = true then [] else [Event.destroy this]) ∧
        w1.next = w.next ∧ ∀ j, j ≠ this → w1.objs j = w.objs j := by
      cases e <;> cases ov <;> simp [Opt.Inv] at hinv <;>
        simp [optional.reset, hobj, destroy_value, set_is_empty] <;>
        intro j hj <;> simp [setObj_objs_ne _ _ _ _ hj]
    obtain ⟨w1, hr, hobj1, hlog1, hn1, hframe⟩ := hreset
    have hw' : w' = w1 := by
      simp only [optional.emplace, hr, andThen_ok] at hthrew
      cases pack with
      | values a =>
        simp only [new_value_pack, new_value, hobj1] at hthrew
        split at hthrew
        · simp only [andThen_threw, Res.threw.injEq] at hthrew
          exact hthrew.symm
        · simp [set_is_empty] at hthrew
      | deref src =>
        simp only [new_value_pack, new_value_copy, hobj1] at hthrew
        split at hthrew
        · rename_i o1 s1 ho1 hs1
          cases ho1
          simp only at hthrew
          split at hthrew
          · simp at hthrew
          · split at hthrew
            · simp only [andThen_threw, Res.threw.injEq] at hthrew
              exact hthrew.symm
            · simp [set_is_empty] at hthrew
        · simp at hthrew
    subst hw'
    exact ⟨hobj1, hlog1, hn1, hframe⟩

/-- Witness for C7: `emplace(0)` throws on the instance of `world01` that holds `7`. -/
theorem emplace_failure_leaves_empty_witness :
    ∃ w', optional.emplace throwingHeld 1 (ArgPack.values 0) world01 = Res.threw w' ∧
      w'.objs 1 = some { is_empty := true, value := none } ∧
      w'.log = [Event.destroy 1] := by
  obtain ⟨w', h1, h2, h3, _⟩ :=
    (emplace_failure_leaves_empty throwingHeld world01 1 { is_empty := false, value := some 7 }
      0 rfl (by decide) rfl).1
  exact ⟨w', h1, h2, h3⟩

/-- Claim C8: `reset()` on a present optional makes it empty and runs `~T()` exactly
once; on an empty optional it changes nothing and runs no destructor; a second
`reset()` changes nothing; `opt = nullopt` is the same call as `reset()`. -/
theorem reset_spec (w : World T) (this : Nat) (o : Opt T)
    (hobj : w.objs this = some o) (hinv : o.Inv) :
    (o.is_empty = false → ∃ w', optional.reset this w = Res.ok w' ∧
        w'.objs this = some { is_empty := true, value := none } ∧
        w'.log = w.log ++ [Event.destroy this] ∧
        w'.next = w.next ∧ ∀ j, j ≠ this → w'.objs j = w.objs j) ∧
    (o.is_empty = true → optional.reset this w = Res.ok w) ∧
    (∀ w', optional.reset this w = Res.ok w' → optional.reset this w' = Res.ok w') ∧
    optional.assign_nullopt this w = optional.reset this w := by
  have hidem : ∀ w', optional.reset this w = Res.ok w' → optional.reset this w' = Res.ok w' := by
    intro w' hw'
    have h1 : w'.objs this = some { is_empty := true, value := none } := by
      obtain ⟨e, v⟩ := o
      cases e <;> cases v <;> simp [Opt.Inv] at hinv <;>
        simp [optional.reset, hobj, destroy_value, set_is_empty] at hw' <;> subst hw' <;> simp
    simp [optional.reset, h1, set_is_empty]
    exact setObj_self _ _ _ h1
  refine ⟨fun he => ?_, fun he => ?_, hidem, rfl⟩
  · obtain ⟨e, v⟩ := o
    cases v <;> simp_all [Opt.Inv]
    simp [optional.reset, hobj, destroy_value, set_is_empty]
    intro j hj
    simp [setObj_objs_ne _ _ _ _ hj]
  · obtain ⟨e, v⟩ := o
    cases v <;> simp_all [Opt.Inv]
    simp [optional.reset, hobj, set_is_empty]
    exact setObj_self _ _ _ hobj

/-- Witness for C8: `reset()` on the instance of `world01` that holds `7`. -/
theorem reset_spec_witness :
    ∃ w', optional.reset 1 world01 = Res.ok w' ∧
      w'.objs 1 = some { is_empty := true, value := none } ∧ w'.log = [Event.destroy 1] := by
  obtain ⟨w', h1, h2, h3, _⟩ :=
    (reset_spec world01 1 { is_empty := false, value := some 7 } rfl (by decide)).1 rfl
  exact ⟨w', h1, h2, h3⟩

/-- Counterexample to C10 as stated: for a held type whose self-move-assignment leaves
its object with the moved-from content, `opt = std::move(opt)` on an optional holding
`7` returns normally with the optional still present but holding `0`. -/
theorem self_move_assign_changes_value :
    world01.objs 1 = some { is_empty := false, value := some 7 } ∧
    ∃ w', base_copy.assign_move clearingHeld 1 1 world01 = Res.ok w' ∧
      w'.objs 1 = some { is_empty := false, value := some 0 } ∧
      w'.objs 1 ≠ world01.objs 1 := by
  refine ⟨rfl, _, rfl, rfl, ?_⟩
  decide

/-- Claim C10, amended: self-assignment and self-move-assignment return with the same
presence flag; on an empty optional they change nothing and perform no `T` operation;
on a present optional they apply the self-(move-)assignment of `T` exactly once to the
live value and construct or destroy nothing, so the contained value is what that
operator of `T` leaves, and the optional is unchanged whenever it leaves the value
unchanged. -/
theorem self_assign_spec (h : Held T A) (w : World T) (this : Nat) (o : Opt T)
    (hobj : w.objs this = some o) (hinv : o.Inv) :
    (o.is_empty = true →
      base_copy.assign_copy h this this w = Res.ok w ∧
      base_copy.assign_move h this this w = Res.ok w) ∧
    (∀ v v', o.value = some v → h.selfCopyAssign v = some v' →
      ∃ w', base_copy.assign_copy h this this w = Res.ok w' ∧
        w'.objs this = some { is_empty := false, value := some v' } ∧
        w'.log = w.log ++ [Event.copyAssign this] ∧
        w'.next = w.next ∧ ∀ j, j ≠ this → w'.objs j = w.objs j) ∧
    (∀ v v', o.value = some v → h.selfMoveAssign v = some v' →
      ∃ w', base_copy.assign_move h this this w = Res.ok w' ∧
        w'.objs this = some { is_empty := false, value := some v' } ∧
        w'.log = w.log ++ [Event.moveAssign this] ∧
        w'.next = w.next ∧ ∀ j, j ≠ this → w'.objs j = w.objs j) ∧
    (∀ v, o.value = some v → h.selfCopyAssign v = some v →
      ∃ w', base_copy.assign_copy h this this w = Res.ok w' ∧ w'.objs = w.objs) ∧
    (∀ v, o.value = some v → h.selfMoveAssign v = some v →
      ∃ w', base_copy.assign_move h this this w = Res.ok w' ∧ w'.objs = w.objs) := by
  obtain ⟨e, ov⟩ := o
  cases e <;> cases ov <;> simp [Opt.Inv] at hinv
  · rename_i v0
    refine ⟨by simp, ?_, ?_, ?_, ?_⟩
    · intro v v' hv hc
      simp at hv
      subst hv
      simp [base_copy.assign_copy, hobj, assign_value_copy, hc, copy_is_empty, set_is_empty]
      intro j hj
      simp [setObj_objs_ne _ _ _ _ hj]
    · intro v v' hv hc
      simp at hv
      subst hv
      simp [base_copy.assign_move, hobj, assign_value_move, hc, copy_is_empty, set_is_empty]
      intro j hj
      simp [setObj_objs_ne _ _ _ _ hj]
    · intro v hv hc
      simp at hv
      subst hv
      simp [base_copy.assign_copy, hobj, assign_value_copy, hc, copy_is_empty, set_is_empty]
      rw [setObj_self _ _ _ hobj]
    · intro v hv hc
      simp at hv
      subst hv
      simp [base_copy.assign_move, hobj, assign_value_move, hc, copy_is_empty, set_is_empty]
      rw [setObj_self _ _ _ hobj]
  · refine ⟨fun _ => ⟨?_, ?_⟩, by simp, by simp, by simp, by simp⟩
    · simp [base_copy.assign_copy, hobj, copy_is_empty, set_is_empty]
      exact setObj_self _ _ _ hobj
    · simp [base_copy.assign_move, hobj, copy_is_empty, set_is_empty]
      exact setObj_self _ _ _ hobj

/-- Witness for C10 amended: `opt = opt` on the instance of `world01` holding `7`. -/
theorem self_assign_spec_witness :
    ∃ w', base_copy.assign_copy natHeld 1 1 world01 = Res.ok w' ∧ w'.objs = world01.objs :=
  (self_assign_spec natHeld world01 1 { is_empty := false, value := some 7 } rfl
    (by decide)).2.2.2.1 7 rfl rfl

/-! ## Further facts: bitwise held types, outcomes of assignment, the order on `int` -/

theorem assign_copy_bitwise (h : Held T A) (hb : h.Bitwise) (w : World T)
    (this copy_class : Nat) (d s : Opt T) (hd : w.objs this = some d)
    (hs : w.objs copy_class = some s) (hdi : d.Inv) (hsi : s.Inv) :
    ∃ w1, base_copy.assign_copy h this copy_class w = Res.ok w1 ∧
      w1.objs = (w.setObj this s).objs ∧ w1.next = w.next := by
  obtain ⟨hcc, hmc, hca, hma, hsca, hsma⟩ := hb
  obtain ⟨de, dv⟩ := d
  obtain ⟨se, sv⟩ := s
  by_cases hne : this = copy_class
  · subst hne
    rw [hd] at hs
    cases hs
    cases de <;> cases dv <;> simp [Opt.Inv] at hdi <;>
      simp [base_copy.assign_copy, hd, assign_value_copy, hsca, copy_is_empty, set_is_empty]
  · have hne' : copy_class ≠ this := fun hc => hne hc.symm
    cases de <;> cases dv <;> simp [Opt.Inv] at hdi <;>
      cases se <;> cases sv <;> simp [Opt.Inv] at hsi <;>
      simp [base_copy.assign_copy, hd, hs, assign_value_copy, new_value_copy, destroy_value,
        hne, hca, hcc, copy_is_empty, set_is_empty, setObj_objs_ne _ _ _ _ hne']

theorem assign_move_bitwise (h : Held T A) (hb : h.Bitwise) (w : World T)
    (this copy_class : Nat) (d s : Opt T) (hd : w.objs this = some d)
    (hs : w.objs copy_class = some s) (hdi : d.Inv) (hsi : s.Inv) :
    ∃ w1, base_copy.assign_move h this copy_class w = Res.ok w1 ∧
      w1.objs = (w.setObj this s).objs ∧ w1.next = w.next := by
  obtain ⟨hcc, hmc, hca, hma, hsca, hsma⟩ := hb
  obtain ⟨de, dv⟩ := d
  obtain ⟨se, sv⟩ := s
  by_cases hne : this = copy_class
  · subst hne
    rw [hd] at hs
    cases hs
    cases de <;> cases dv <;> simp [Opt.Inv] at hdi <;>
      simp [base_copy.assign_move, hd, assign_value_move, hsma, copy_is_empty, set_is_empty]
  · have hne' : copy_class ≠ this := fun hc => hne hc.symm
    cases de <;> cases dv <;> simp [Opt.Inv] at hdi <;>
      cases se <;> cases sv <;> simp [Opt.Inv] at hsi <;>
      simp [base_copy.assign_move, hd, hs, assign_value_move, new_value_move, destroy_value,
        hne, hma, hmc, copy_is_empty, set_is_empty, setObj_objs_ne _ _ _ _ hne',
        setObj_self _ _ _ hs]

theorem ctor_copy_bitwise (h : Held T A) (hb : h.Bitwise) (w : World T)
    (copy_class : Nat) (s : Opt T) (hs : w.objs copy_class = some s) (hsi : s.Inv)
    (hfresh : w.objs w.next = none) :
    ∃ w1, base_copy.ctor_copy h copy_class w = Res.ok w1 ∧
      w1.objs = (w.alloc s).objs ∧ w1.next = w.next + 1 := by
  obtain ⟨hcc, hmc, hca, hma, hsca, hsma⟩ := hb
  have hne : copy_class ≠ w.next := ne_next_of_some hs hfresh
  obtain ⟨se, sv⟩ := s
  cases se <;> cases sv <;> simp [Opt.Inv] at hsi <;>
    simp [base_copy.ctor_copy, hs, copy_is_empty, set_is_empty, alloc_objs_ne _ _ _ hne,
      new_value_copy, base_destructor.ctor_default, hcc, unwind_base]

theorem ctor_move_bitwise (h : Held T A) (hb : h.Bitwise) (w : World T)
    (copy_class : Nat) (s : Opt T) (hs : w.objs copy_class = some s) (hsi : s.Inv)
    (hfresh : w.objs w.next = none) :
    ∃ w1, base_copy.ctor_move h copy_class w = Res.ok w1 ∧
      w1.objs = (w.alloc s).objs ∧ w1.next = w.next + 1 := by
  obtain ⟨hcc, hmc, hca, hma, hsca, hsma⟩ := hb
  have hne : copy_class ≠ w.next := ne_next_of_some hs hfresh
  obtain ⟨se, sv⟩ := s
  cases se <;> cases sv <;> simp [Opt.Inv] at hsi <;>
    simp [base_copy.ctor_move, hs, copy_is_empty, set_is_empty, alloc_objs_ne _ _ _ hne,
      new_value_move, base_destructor.ctor_default, hmc, unwind_base]
  funext j
  by_cases h1 : j = w.next
  · subst h1
    simp
  · by_cases h2 : j = copy_class
    · subst h2
      simp [setObj_objs_ne _ _ _ _ h1, alloc_objs_ne _ _ _ h1, hs]
    · simp [setObj_objs_ne _ _ _ _ h1, setObj_objs_ne _ _ _ _ h2, alloc_objs_ne _ _ _ h1]

theorem sameDestination_of_objs {dst : Nat} {r1 r2 : Res (World T)} (w1 w2 : World T)
    (h1 : r1 = Res.ok w1) (h2 : r2 = Res.ok w2) (hobjs : w1.objs = w2.objs)
    (hsome : (w2.objs dst).isSome = true) : SameDestination dst r1 r2 := by
  obtain ⟨d2, hd2⟩ := Option.isSome_iff_exists.mp hsome
  exact ⟨w1, w2, d2, d2, h1, h2, by rw [hobjs, hd2], hd2, rfl, fun _ => rfl, hobjs⟩

theorem assign_copy_outcome (h : Held T A) (w : World T) (this copy_class : Nat) (d s : Opt T)
    (hd : w.objs this = some d) (hs : w.objs copy_class = some s) (hdi : d.Inv)
    (hsi : s.Inv) :
    (∃ w' d', base_copy.assign_copy h this copy_class w = Res.ok w' ∧
        w'.objs this = some d' ∧ d'.Inv ∧ d'.is_empty = s.is_empty) ∨
      (base_copy.assign_copy h this copy_class w = Res.threw w ∧ s.is_empty = false) := by
  obtain ⟨de, dv⟩ := d
  obtain ⟨se, sv⟩ := s
  by_cases hne : this = copy_class
  · subst hne
    rw [hd] at hs
    cases hs
    cases de <;> cases dv <;> simp [Opt.Inv] at hdi
    · rename_i dv
      cases hc : h.selfCopyAssign dv <;>
        simp [base_copy.assign_copy, hd, assign_value_copy, hc, copy_is_empty, set_is_empty,
          Opt.Inv]
    · simp [base_copy.assign_copy, hd, copy_is_empty, set_is_empty, Opt.Inv]
  · have hne' : copy_class ≠ this := fun hc => hne hc.symm
    cases de <;> cases dv <;> simp [Opt.Inv] at hdi <;>
      cases se <;> cases sv <;> simp [Opt.Inv] at hsi
    · rename_i dv sv
      cases hc : h.copyAssign dv sv <;>
        simp [base_copy.assign_copy, hd, hs, assign_value_copy, hne, hc, copy_is_empty,
          set_is_empty, setObj_objs_ne _ _ _ _ hne', Opt.Inv]
    · simp [base_copy.assign_copy, hd, hs, destroy_value, copy_is_empty, set_is_empty,
        setObj_objs_ne _ _ _ _ hne', Opt.Inv]
    · rename_i sv
      cases hc : h.copyConstruct sv <;>
        simp [base_copy.assign_copy, hd, hs, new_value_copy, hc, copy_is_empty,
          set_is_empty, setObj_objs_ne _ _ _ _ hne', Opt.Inv]
    · simp [base_copy.assign_copy, hd, hs, copy_is_empty, set_is_empty, Opt.Inv]

theorem assign_move_outcome (h : Held T A) (w : World T) (this copy_class : Nat) (d s : Opt T)
    (hd : w.objs this = some d) (hs : w.objs copy_class = some s) (hdi : d.Inv)
    (hsi : s.Inv) :
    (∃ w' d', base_copy.assign_move h this copy_class w = Res.ok w' ∧
        w'.objs this = some d' ∧ d'.Inv ∧ d'.is_empty = s.is_empty) ∨
      (base_copy.assign_move h this copy_class w = Res.threw w ∧ s.is_empty = false) := by
  obtain ⟨de, dv⟩ := d
  obtain ⟨se, sv⟩ := s
  by_cases hne : this = copy_class
  · subst hne
    rw [hd] at hs
    cases hs
    cases de <;> cases dv <;> simp [Opt.Inv] at hdi
    · rename_i dv
      cases hc : h.selfMoveAssign dv <;>
        simp [base_copy.assign_move, hd, assign_value_move, hc, copy_is_empty, set_is_empty,
          Opt.Inv]
    · simp [base_copy.assign_move, hd, copy_is_empty, set_is_empty, Opt.Inv]
  · have hne' : copy_class ≠ this := fun hc => hne hc.symm
    cases de <;> cases dv <;> simp [Opt.Inv] at hdi <;>
      cases se <;> cases sv <;> simp [Opt.Inv] at hsi
    · rename_i dv sv
      cases hc : h.moveAssign dv sv <;>
        simp [base_copy.assign_move, hd, hs, assign_value_move, hne, hc, copy_is_empty,
          set_is_empty, setObj_objs_ne _ _ _ _ hne', Opt.Inv]
    · simp [base_copy.assign_move, hd, hs, destroy_value, copy_is_empty, set_is_empty,
        setObj_objs_ne _ _ _ _ hne', Opt.Inv]
    · rename_i sv
      cases hc : h.moveConstruct sv <;>
        simp [base_copy.assign_move, hd, hs, new_value_move, hc, copy_is_empty,
          set_is_empty, setObj_objs_ne _ _ _ _ hne', Opt.Inv]
    · simp [base_copy.assign_move, hd, hs, copy_is_empty, set_is_empty, Opt.Inv]

theorem assign_ignores_operators_when_empty (h : Held T A) (w : World T)
    (this copy_class : Nat) (d s : Opt T) (hd : w.objs this = some d)
    (hs : w.objs copy_class = some s) (hempty : d.is_empty = true ∨ s.is_empty = true)
    (ca : T → T → Option T) (ma : T → T → Option (T × T)) (sca sma : T → Option T) :
    base_copy.assign_copy (h.withAssign ca ma sca sma) this copy_class w =
        base_copy.assign_copy h this copy_class w ∧
      base_copy.assign_move (h.withAssign ca ma sca sma) this copy_class w =
        base_copy.assign_move h this copy_class w := by
  obtain ⟨de, dv⟩ := d
  obtain ⟨se, sv⟩ := s
  cases de <;> cases se <;> simp at hempty <;>
    simp [base_copy.assign_copy, base_copy.assign_move, hd, hs, new_value_copy,
      new_value_move, Held.withAssign]

theorem lt_asymm_of_strict {lt : T → T → Bool} (hso : StrictOrder lt) {x y : T}
    (hxy : lt x y = true) : lt y x = false := by
  cases hyx : lt y x
  · rfl
  · have := hso.2 x y x hxy hyx
    rw [hso.1 x] at this
    cases this

theorem strictOrder_intLt : StrictOrder intLt := by
  refine ⟨fun a => ?_, fun a b c hab hbc => ?_⟩
  · simp [intLt]
  · simp only [intLt, decide_eq_true_eq] at hab hbc ⊢
    omega

theorem inducedEq_int : InducedEq intEq intLt := by
  intro a b
  simp only [intEq, intLt, decide_eq_true_eq, decide_eq_false_iff_not]
  omega

/-! ## The claims on observers, comparisons and the two specialisations -/

/-- Counterexample to C11 as stated: for a probe type whose value counts its move
constructions, the optional constructed from `5` is present but `*opt` is `6`, which
does not compare equal to `5`. -/
theorem ctor_value_of_move_counting_probe :
    ∃ w' o, optional.ctor_value moveCountingHeld 5 World.empty = Res.ok w' ∧
      w'.objs 0 = some o ∧ optional.operator_bool o = true ∧
      optional.operator_star o = some 6 ∧ natEq 6 5 = false :=
  ⟨_, _, rfl, rfl, rfl, rfl, rfl⟩

/-- Claim C11, amended: whenever the move constructor of `T` succeeds on the by-value
parameter `v`, the optional constructed from `v` is present (`bool(opt)` is true), the
one `T` operation performed is that move construction, and `*opt` is the value it
built; so `*opt` compares equal to `v` whenever the move construction of `T` yields a
value that compares equal to its source. -/
theorem ctor_value_present_and_deref (h : Held T A) (w : World T) (v v' r : T)
    (hmove : h.moveConstruct v = some (v', r)) :
    ∃ w' o, optional.ctor_value h v w = Res.ok w' ∧ w'.objs w.next = some o ∧
      optional.operator_bool o = true ∧ optional.operator_star o = some v' ∧
      w'.log = w.log ++ [Event.moveConstruct w.next] ∧
      ∀ eq : T → T → Bool, eq v' v = true →
        ∃ x, optional.operator_star o = some x ∧ eq x v = true := by
  refine ⟨(w.alloc { is_empty := false, value := some v' }).emit (Event.moveConstruct w.next),
    { is_empty := false, value := some v' }, ?_, ?_, rfl, rfl, ?_, fun eq heq => ⟨v', rfl, heq⟩⟩
  · simp [optional.ctor_value, hmove]
  · simp
  · simp

/-- Witness for C11 amended: `optional<int>(5)` as the first instance of a program. -/
theorem ctor_value_present_and_deref_witness :
    ∃ w' o, optional.ctor_value intHeld 5 World.empty = Res.ok w' ∧
      w'.objs 0 = some o ∧ optional.operator_bool o = true ∧
      ∃ x, optional.operator_star o = some x ∧ intEq x 5 = true := by
  obtain ⟨w', o, h1, h2, h3, _, _, h6⟩ :=
    ctor_value_present_and_deref intHeld World.empty 5 5 5 rfl
  exact ⟨w', o, h1, h2, h3, h6 intEq (by decide)⟩

/-- Claim C12: a default-constructed optional and an optional constructed from `nullopt`
are not present: for both, `bool(opt)` is false, the slot holds no `T`, and no `T`
operation is performed. -/
theorem ctor_default_and_nullopt_empty (h : Held T A) (w : World T) :
    (∃ w' o, step h Op.ctor_default w = Res.ok w' ∧ w'.objs w.next = some o ∧
      optional.operator_bool o = false ∧ o.value = none ∧ w'.log = w.log) ∧
    (∃ w' o, step h Op.ctor_nullopt w = Res.ok w' ∧ w'.objs w.next = some o ∧
      optional.operator_bool o = false ∧ o.value = none ∧ w'.log = w.log) ∧
    optional.operator_bool (base_destructor.ctor_default : Opt T) = false ∧
    optional.operator_bool (base_destructor.ctor_nullopt : Opt T) = false := by
  refine ⟨⟨_, _, rfl, alloc_objs_same _ _, rfl, rfl, rfl⟩,
    ⟨_, _, rfl, alloc_objs_same _ _, rfl, rfl, rfl⟩, rfl, rfl⟩

/-- Claim C13: `a == b` is true exactly when both optionals are empty, or both are
present and their values compare equal under the `==` of `T`; when exactly one is
present it is false.  On `optional<int>`: `() == ()` is true, `(5) == ()` is false,
`(5) == (5)` is true and `(5) == (6)` is false. -/
theorem operator_eq_spec (eq : T → T → Bool) (a b : Opt T) (ha : a.Inv) (hb : b.Inv) :
    (∃ r, operator_eq eq a b = some r ∧
      (r = true ↔
        (optional.operator_bool a = false ∧ optional.operator_bool b = false) ∨
        (optional.operator_bool a = true ∧ optional.operator_bool b = true ∧
          ∃ x y, optional.operator_star a = some x ∧ optional.operator_star b = some y ∧
            eq x y = true)) ∧
      (optional.operator_bool a ≠ optional.operator_bool b → r = false)) ∧
    on_built (operator_eq intEq) optional_int_empty optional_int_empty = some true ∧
    on_built (operator_eq intEq) (optional_int 5) optional_int_empty = some false ∧
    on_built (operator_eq intEq) (optional_int 5) (optional_int 5) = some true ∧
    on_built (operator_eq intEq) (optional_int 5) (optional_int 6) = some false := by
  refine ⟨?_, by decide, by decide, by decide, by decide⟩
  obtain ⟨ae, av⟩ := a
  obtain ⟨be, bv⟩ := b
  cases ae <;> cases av <;> simp [Opt.Inv] at ha <;>
    cases be <;> cases bv <;> simp [Opt.Inv] at hb <;>
    simp [operator_eq, optional.operator_bool, optional.operator_star]

/-- Witness for C13: `optional<int>(5)` against `optional<int>()`. -/
theorem operator_eq_spec_witness :
    ∃ r, operator_eq intEq { is_empty := false, value := some 5 }
        { is_empty := true, value := none } = some r ∧ r = false := by
  obtain ⟨r, h1, _, h3⟩ :=
    (operator_eq_spec intEq { is_empty := false, value := some 5 }
      { is_empty := true, value := none } (by decide) (by decide)).1
  exact ⟨r, h1, h3 (by decide)⟩

/-- Claim C14: `a < b` is true exactly when `b` is present and either `a` is empty or
`a` is present with `*a < *b` under the `<` of `T`: an empty optional is before every
present one, nothing is less than an empty optional, and two empty optionals are not
less than each other.  On `optional<int>`: `() < (0)` is true, `(3) < (5)` is true and
`() < ()` is false. -/
theorem operator_lt_spec (lt : T → T → Bool) (a b : Opt T) (ha : a.Inv) (hb : b.Inv) :
    (∃ r, operator_lt lt a b = some r ∧
      (r = true ↔
        (optional.operator_bool b = true ∧
          (optional.operator_bool a = false ∨
            (optional.operator_bool a = true ∧
              ∃ x y, optional.operator_star a = some x ∧ optional.operator_star b = some y ∧
                lt x y = true)))) ∧
      (optional.operator_bool a = false → optional.operator_bool b = true → r = true) ∧
      (optional.operator_bool b = false → r = false)) ∧
    on_built (operator_lt intLt) optional_int_empty (optional_int 0) = some true ∧
    on_built (operator_lt intLt) (optional_int 3) (optional_int 5) = some true ∧
    on_built (operator_lt intLt) optional_int_empty optional_int_empty = some false := by
  refine ⟨?_, by decide, by decide, by decide⟩
  obtain ⟨ae, av⟩ := a
  obtain ⟨be, bv⟩ := b
  cases ae <;> cases av <;> simp [Opt.Inv] at ha <;>
    cases be <;> cases bv <;> simp [Opt.Inv] at hb <;>
    simp [operator_lt, optional.operator_bool, optional.operator_star]

/-- Witness for C14: `optional<int>()` against `optional<int>(0)`. -/
theorem operator_lt_spec_witness :
    ∃ r, operator_lt intLt { is_empty := true, value := none }
        { is_empty := false, value := some 0 } = some r ∧ r = true := by
  obtain ⟨r, h1, _, h3, _⟩ :=
    (operator_lt_spec intLt { is_empty := true, value := none }
      { is_empty := false, value := some 0 } (by decide) (by decide)).1
  exact ⟨r, h1, h3 rfl rfl⟩

/-- Claim C15: the derived operators are computed from `==` and `<`: `a != b` is the
negation of `a == b`, `a <= b` is `a < b` or `a == b`, `a > b` is the negation of
`a <= b`, and `a >= b` is the negation of `a < b`. -/
theorem derived_operators_spec (eq lt : T → T → Bool) (a b : Opt T) (ha : a.Inv)
    (hb : b.Inv) :
    ∃ re rl, operator_eq eq a b = some re ∧ operator_lt lt a b = some rl ∧
      operator_ne eq a b = some (!re) ∧
      operator_le eq lt a b = some (rl || re) ∧
      (∃ rle, operator_le eq lt a b = some rle ∧ operator_gt eq lt a b = some (!rle)) ∧
      operator_ge lt a b = some (!rl) := by
  obtain ⟨ae, av⟩ := a
  obtain ⟨be, bv⟩ := b
  cases ae <;> cases av <;> simp [Opt.Inv] at ha <;>
    cases be <;> cases bv <;> simp [Opt.Inv] at hb <;>
    simp [operator_eq, operator_lt, operator_ne, operator_le, operator_gt, operator_ge,
      optional.operator_bool, optional.operator_star]
  rename_i x y
  cases lt x y <;> simp

/-- Witness for C15: `optional<int>(3)` against `optional<int>(5)`. -/
theorem derived_operators_spec_witness :
    operator_ne intEq { is_empty := false, value := some 3 }
        { is_empty := false, value := some 5 } = some true ∧
      operator_le intEq intLt { is_empty := false, value := some 3 }
        { is_empty := false, value := some 5 } = some true ∧
      operator_ge intLt { is_empty := false, value := some 3 }
        { is_empty := false, value := some 5 } = some false := by
  obtain ⟨re, rl, h1, h2, h3, h4, _, h6⟩ :=
    derived_operators_spec intEq intLt { is_empty := false, value := some 3 }
      { is_empty := false, value := some 5 } (by decide) (by decide)
  have hre : re = false := by
    have : operator_eq intEq { is_empty := false, value := some 3 }
        { is_empty := false, value := some 5 } = some false := by decide
    rw [this] at h1
    exact (Option.some.inj h1).symm
  have hrl : rl = true := by
    have : operator_lt intLt { is_empty := false, value := some 3 }
        { is_empty := false, value := some 5 } = some true := by decide
    rw [this] at h2
    exact (Option.some.inj h2).symm
  subst hre hrl
  exact ⟨h3, h4, h6⟩

/-- Claim C16: for a held type whose copies and moves reproduce the bytes of the source,
the four-case copy/move construction and assignment of `base_copy<T, false>` and the
member-wise copy of `base_copy<T, true>` return, from every pair of source and
destination states, worlds in which the destination has the same presence and, when
present, the same contained value (indeed the same instances everywhere). -/
theorem trivial_specialisation_agrees (h : Held T A) (hb : h.Bitwise) (w : World T)
    (this copy_class : Nat) (d s : Opt T) (hd : w.objs this = some d)
    (hs : w.objs copy_class = some s) (hdi : d.Inv) (hsi : s.Inv)
    (hfresh : w.objs w.next = none) :
    SameDestination this (base_copy.assign_copy h this copy_class w)
      (base_copy_trivial.assign_copy this copy_class w) ∧
    SameDestination this (base_copy.assign_move h this copy_class w)
      (base_copy_trivial.assign_move this copy_class w) ∧
    SameDestination w.next (base_copy.ctor_copy h copy_class w)
      (base_copy_trivial.ctor_copy copy_class w) ∧
    SameDestination w.next (base_copy.ctor_move h copy_class w)
      (base_copy_trivial.ctor_move copy_class w) := by
  refine ⟨?_, ?_, ?_, ?_⟩
  · obtain ⟨w1, h1, h2, _⟩ := assign_copy_bitwise h hb w this copy_class d s hd hs hdi hsi
    refine sameDestination_of_objs w1 (w.setObj this s) h1 ?_ h2 (by simp)
    simp [base_copy_trivial.assign_copy, hd, hs]
  · obtain ⟨w1, h1, h2, _⟩ := assign_move_bitwise h hb w this copy_class d s hd hs hdi hsi
    refine sameDestination_of_objs w1 (w.setObj this s) h1 ?_ h2 (by simp)
    simp [base_copy_trivial.assign_move, hd, hs]
  · obtain ⟨w1, h1, h2, _⟩ := ctor_copy_bitwise h hb w copy_class s hs hsi hfresh
    refine sameDestination_of_objs w1 (w.alloc s) h1 ?_ h2 (by simp)
    simp [base_copy_trivial.ctor_copy, hs]
  · obtain ⟨w1, h1, h2, _⟩ := ctor_move_bitwise h hb w copy_class s hs hsi hfresh
    refine sameDestination_of_objs w1 (w.alloc s) h1 ?_ h2 (by simp)
    simp [base_copy_trivial.ctor_move, hs]

/-- Witness for C16: in `world37` the instance holding `3` is copy-assigned the one
holding `7`, by both specialisations. -/
theorem trivial_specialisation_agrees_witness :
    SameDestination 0 (base_copy.assign_copy natBitwiseHeld 0 1 world37)
      (base_copy_trivial.assign_copy 0 1 world37) :=
  (trivial_specialisation_agrees natBitwiseHeld
    ⟨fun _ => rfl, fun _ => rfl, fun _ _ => rfl, fun _ _ => rfl, fun _ => rfl, fun _ => rfl⟩
    world37 0 1 { is_empty := false, value := some 3 } { is_empty := false, value := some 7 }
    rfl rfl (by decide) (by decide) rfl).1

/-- Claim C17: on the manual copy and move assignment paths, from instances that satisfy
the presence invariant: when either side is empty the outcome does not depend on the
assignment operators of `T` at all (the branch `this->value = ...` is not reached); no
call commits a lifetime violation, so no assignment operator is applied to a slot
without a live `T` and no `T` is constructed over a live one; and after every call that
returns or throws, the destination's flag says present exactly when its slot holds a
live `T`. -/
theorem assignment_operator_only_on_live (h : Held T A) (w : World T)
    (this copy_class : Nat) (d s : Opt T) (hd : w.objs this = some d)
    (hs : w.objs copy_class = some s) (hdi : d.Inv) (hsi : s.Inv) :
    ((d.is_empty = true ∨ s.is_empty = true) →
      ∀ (ca : T → T → Option T) (ma : T → T → Option (T × T)) (sca sma : T → Option T),
        base_copy.assign_copy (h.withAssign ca ma sca sma) this copy_class w =
          base_copy.assign_copy h this copy_class w ∧
        base_copy.assign_move (h.withAssign ca ma sca sma) this copy_class w =
          base_copy.assign_move h this copy_class w) ∧
    (∀ f, base_copy.assign_copy h this copy_class w ≠ Res.fault f ∧
      base_copy.assign_move h this copy_class w ≠ Res.fault f) ∧
    (∀ w', (base_copy.assign_copy h this copy_class w = Res.ok w' ∨
        base_copy.assign_copy h this copy_class w = Res.threw w' ∨
        base_copy.assign_move h this copy_class w = Res.ok w' ∨
        base_copy.assign_move h this copy_class w = Res.threw w') →
      ∃ d', w'.objs this = some d' ∧ d'.Inv) := by
  have hc := assign_copy_outcome h w this copy_class d s hd hs hdi hsi
  have hm := assign_move_outcome h w this copy_class d s hd hs hdi hsi
  refine ⟨fun hempty ca ma sca sma =>
    assign_ignores_operators_when_empty h w this copy_class d s hd hs hempty ca ma sca sma,
    fun f => ⟨fun hf => ?_, fun hf => ?_⟩, fun w' hw' => ?_⟩
  · rcases hc with ⟨w', d', hr, _⟩ | ⟨hr, _⟩ <;> rw [hr] at hf <;> cases hf
  · rcases hm with ⟨w', d', hr, _⟩ | ⟨hr, _⟩ <;> rw [hr] at hf <;> cases hf
  · rcases hw' with hr | hr | hr | hr
    · rcases hc with ⟨w1, d', hr1, ho, hi, _⟩ | ⟨hr1, _⟩ <;> rw [hr1] at hr <;> cases hr
      exact ⟨d', ho, hi⟩
    · rcases hc with ⟨w1, d', hr1, ho, hi, _⟩ | ⟨hr1, _⟩ <;> rw [hr1] at hr <;> cases hr
      exact ⟨d, hd, hdi⟩
    · rcases hm with ⟨w1, d', hr1, ho, hi, _⟩ | ⟨hr1, _⟩ <;> rw [hr1] at hr <;> cases hr
      exact ⟨d', ho, hi⟩
    · rcases hm with ⟨w1, d', hr1, ho, hi, _⟩ | ⟨hr1, _⟩ <;> rw [hr1] at hr <;> cases hr
      exact ⟨d, hd, hdi⟩

/-- Witness for C17: in `world01` the empty instance `0` is assigned the instance `1`
with a held type whose copy assignment always throws, and the call still returns. -/
theorem assignment_operator_only_on_live_witness :
    base_copy.assign_copy throwingAssignHeld 0 1 world01 =
      base_copy.assign_copy natHeld 0 1 world01 := by
  have hthm := (assignment_operator_only_on_live natHeld world01 0 1
    { is_empty := true, value := none } { is_empty := false, value := some 7 } rfl rfl
    (by decide) (by decide)).1 (Or.inl rfl) (fun _ _ => none) natHeld.moveAssign
    natHeld.selfCopyAssign natHeld.selfMoveAssign
  exact hthm.1

/-- Claim C18: when the `<` of `T` is a strict order and the `==` of `T` is the equality
it induces (so that `<` is a strict total order), the comparisons of optionals form a
strict total order with the empty optional least: `<` is irreflexive and transitive,
exactly one of `a < b`, `a == b`, `b < a` holds, nothing is below an empty optional
and an empty optional is below every present one, `a > b` is `b < a`, and `a >= b`
is `b <= a`. -/
theorem optional_strict_total_order (eq lt : T → T → Bool) (hso : StrictOrder lt)
    (hie : InducedEq eq lt) (a b c : Opt T) (ha : a.Inv) (hb : b.Inv) (hc : c.Inv) :
    operator_lt lt a a = some false ∧
    (operator_lt lt a b = some true → operator_lt lt b c = some true →
      operator_lt lt a c = some true) ∧
    ((operator_lt lt a b = some true ∧ operator_eq eq a b = some false ∧
        operator_lt lt b a = some false) ∨
      (operator_lt lt a b = some false ∧ operator_eq eq a b = some true ∧
        operator_lt lt b a = some false) ∨
      (operator_lt lt a b = some false ∧ operator_eq eq a b = some false ∧
        operator_lt lt b a = some true)) ∧
    (optional.operator_bool a = false → operator_lt lt b a = some false ∧
      (optional.operator_bool b = true → operator_lt lt a b = some true)) ∧
    operator_gt eq lt a b = operator_lt lt b a ∧
    operator_ge lt a b = operator_le eq lt b a := by
  obtain ⟨ae, av⟩ := a
  obtain ⟨be, bv⟩ := b
  obtain ⟨ce, cv⟩ := c
  cases ae <;> cases av <;> simp [Opt.Inv] at ha <;>
    cases be <;> cases bv <;> simp [Opt.Inv] at hb
  · rename_i x y
    have hxx := hso.1 x
    have h1 := hie x y
    have h2 := hie y x
    have h3 : lt x y = true → lt y x = false := fun hh => lt_asymm_of_strict hso hh
    refine ⟨?_, ?_, ?_, ?_, ?_, ?_⟩
    · simp [operator_lt, optional.operator_bool, optional.operator_star, hxx]
    · cases ce <;> cases cv <;> simp [Opt.Inv] at hc
      · rename_i z
        simp only [operator_lt, optional.operator_bool, optional.operator_star]
        simp only [Bool.not_false, Bool.not_true, Bool.false_eq_true, if_false,
          Option.some.injEq]
        exact hso.2 x y z
      · simp [operator_lt, optional.operator_bool, optional.operator_star]
    · simp only [operator_lt, operator_eq, optional.operator_bool, optional.operator_star]
      cases hxy : lt x y <;> cases hyx : lt y x <;> cases hexy : eq x y <;> simp_all
    · simp [optional.operator_bool]
    · simp only [operator_gt, operator_le, operator_lt, operator_eq, optional.operator_bool,
        optional.operator_star]
      cases hxy : lt x y <;> cases hyx : lt y x <;> cases hexy : eq x y <;> simp_all
    · simp only [operator_ge, operator_le, operator_lt, operator_eq, optional.operator_bool,
        optional.operator_star]
      cases hxy : lt x y <;> cases hyx : lt y x <;> cases heyx : eq y x <;> simp_all
  · simp [operator_lt, operator_eq, operator_gt, operator_ge, operator_le,
      optional.operator_bool, optional.operator_star, hso.1]
  · refine ⟨?_, ?_, ?_, ?_, ?_, ?_⟩
    · simp [operator_lt, optional.operator_bool, optional.operator_star]
    · cases ce <;> cases cv <;> simp [Opt.Inv] at hc <;>
        simp [operator_lt, optional.operator_bool, optional.operator_star]
    · simp [operator_lt, operator_eq, optional.operator_bool, optional.operator_star]
    · simp [operator_lt, optional.operator_bool, optional.operator_star]
    · simp [operator_lt, operator_eq, operator_gt, operator_le,
        optional.operator_bool, optional.operator_star]
    · simp [operator_lt, operator_eq, operator_ge, operator_le,
        optional.operator_bool, optional.operator_star]
  · simp [operator_lt, operator_eq, operator_gt, operator_ge, operator_le,
      optional.operator_bool, optional.operator_star]

/-- Witness for C18: `optional<int>(5)`, `optional<int>(3)` and `optional<int>()`. -/
theorem optional_strict_total_order_witness :
    operator_gt intEq intLt { is_empty := false, value := some 5 }
        { is_empty := false, value := some 3 } =
      operator_lt intLt { is_empty := false, value := some 3 }
        { is_empty := false, value := some 5 } :=
  (optional_strict_total_order intEq intLt strictOrder_intLt inducedEq_int
    { is_empty := false, value := some 5 } { is_empty := false, value := some 3 }
    { is_empty := true, value := none } (by decide) (by decide) (by decide)).2.2.2.2.1

/-- Claim C19: when an operation of `T` throws during copy or move assignment, the
exception reaches the caller with the world as it was before the call, so the final
flag update has not run: after a failed copy/move construction in the (empty, present)
case the destination's flag still reads empty and its slot holds no `T`; after a failed
assignment of `T` in the (present, present) case the destination's flag still reads
present. -/
theorem assign_failure_keeps_flag (h : Held T A) (w : World T) (this copy_class : Nat)
    (d s : Opt T) (hd : w.objs this = some d) (hs : w.objs copy_class = some s)
    (hdi : d.Inv) (hsi : s.Inv) :
    (d.is_empty = true → ∀ sv, s.value = some sv → h.copyConstruct sv = none →
      base_copy.assign_copy h this copy_class w = Res.threw w ∧
      w.objs this = some { is_empty := true, value := none }) ∧
    (d.is_empty = true → ∀ sv, s.value = some sv → h.moveConstruct sv = none →
      base_copy.assign_move h this copy_class w = Res.threw w ∧
      w.objs this = some { is_empty := true, value := none }) ∧
    (∀ dv sv, d.value = some dv → s.value = some sv →
      (this = copy_class → h.selfCopyAssign dv = none) →
      (this ≠ copy_class → h.copyAssign dv sv = none) →
      base_copy.assign_copy h this copy_class w = Res.threw w ∧
      ∃ d', w.objs this = some d' ∧ d'.is_empty = false ∧ optional.operator_bool d' = true) ∧
    (∀ dv sv, d.value = some dv → s.value = some sv →
      (this = copy_class → h.selfMoveAssign dv = none) →
      (this ≠ copy_class → h.moveAssign dv sv = none) →
      base_copy.assign_move h this copy_class w = Res.threw w ∧
      ∃ d', w.objs this = some d' ∧ d'.is_empty = false ∧ optional.operator_bool d' = true) := by
  obtain ⟨de, dv⟩ := d
  obtain ⟨se, sv⟩ := s
  cases de <;> cases dv <;> simp [Opt.Inv] at hdi <;>
    cases se <;> cases sv <;> simp [Opt.Inv] at hsi
  · rename_i dv sv
    refine ⟨by simp, by simp, ?_, ?_⟩
    · intro dv' sv' hdv hsv hc1 hc2
      simp at hdv hsv
      subst hdv hsv
      refine ⟨?_, _, hd, rfl, rfl⟩
      by_cases hne : this = copy_class
      · have hc := hc1 hne
        subst hne
        simp [base_copy.assign_copy, hd, assign_value_copy, hc]
      · have hc := hc2 hne
        simp [base_copy.assign_copy, hd, hs, assign_value_copy, hne, hc]
    · intro dv' sv' hdv hsv hc1 hc2
      simp at hdv hsv
      subst hdv hsv
      refine ⟨?_, _, hd, rfl, rfl⟩
      by_cases hne : this = copy_class
      · have hc := hc1 hne
        subst hne
        simp [base_copy.assign_move, hd, assign_value_move, hc]
      · have hc := hc2 hne
        simp [base_copy.assign_move, hd, hs, assign_value_move, hne, hc]
  · simp
  · rename_i sv
    have hne : this ≠ copy_class := by
      intro hc
      subst hc
      rw [hd] at hs
      cases hs
    refine ⟨?_, ?_, by simp, by simp⟩
    · intro _ sv' hsv hc
      simp at hsv
      subst hsv
      exact ⟨by simp [base_copy.assign_copy, hd, hs, new_value_copy, hc], hd⟩
    · intro _ sv' hsv hc
      simp at hsv
      subst hsv
      exact ⟨by simp [base_copy.assign_move, hd, hs, new_value_move, hc], hd⟩
  · simp

/-- Witness for C19: in `world01` the empty instance `0` is copy-assigned the instance
`1` for a held type whose copy constructor throws. -/
theorem assign_failure_keeps_flag_witness :
    base_copy.assign_copy throwingCopyHeld 0 1 world01 = Res.threw world01 ∧
      world01.objs 0 = some { is_empty := true, value := none } :=
  (assign_failure_keeps_flag throwingCopyHeld world01 0 1 { is_empty := true, value := none }
    { is_empty := false, value := some 7 } rfl rfl (by decide) (by decide)).1 rfl 7 rfl rfl

/-- Claim C20: when the copy construction and the copy assignment of `T` produce a value
that compares equal, under the `==` of `T`, to the value copied, then for every source
`s` and every destination state both the optional copy-constructed from `s` and the
destination after `dst = s` satisfy `dst == s`, and `s` itself is unchanged. -/
theorem copy_round_trips_through_eq (h : Held T A) (eq : T → T → Bool) (w : World T)
    (this copy_class : Nat) (d s : Opt T) (hne : this ≠ copy_class)
    (hd : w.objs this = some d) (hs : w.objs copy_class = some s) (hdi : d.Inv)
    (hsi : s.Inv) (hfresh : w.objs w.next = none)
    (hcc : ∀ v, ∃ v', h.copyConstruct v = some v' ∧ eq v' v = true)
    (hca : ∀ a b, ∃ v', h.copyAssign a b = some v' ∧ eq v' b = true) :
    (∃ w' d', base_copy.ctor_copy h copy_class w = Res.ok w' ∧
      w'.objs w.next = some d' ∧ operator_eq eq d' s = some true ∧
      w'.objs copy_class = some s) ∧
    (∃ w' d', base_copy.assign_copy h this copy_class w = Res.ok w' ∧
      w'.objs this = some d' ∧ operator_eq eq d' s = some true ∧
      w'.objs copy_class = some s) := by
  have hne' : copy_class ≠ this := fun hc => hne hc.symm
  have hnx : copy_class ≠ w.next := ne_next_of_some hs hfresh
  obtain ⟨de, dv⟩ := d
  obtain ⟨se, sv⟩ := s
  cases se <;> cases sv <;> simp [Opt.Inv] at hsi
  · rename_i sv
    obtain ⟨v', hv', hev'⟩ := hcc sv
    constructor
    · simp [base_copy.ctor_copy, hs, copy_is_empty, set_is_empty, alloc_objs_ne _ _ _ hnx,
        new_value_copy, base_destructor.ctor_default, hv', unwind_base, operator_eq,
        optional.operator_bool, optional.operator_star, hev']
    · cases de <;> cases dv <;> simp [Opt.Inv] at hdi
      · rename_i dv
        obtain ⟨v2, hv2, hev2⟩ := hca dv sv
        simp [base_copy.assign_copy, hd, hs, assign_value_copy, hne, hv2, copy_is_empty,
          set_is_empty, setObj_objs_ne _ _ _ _ hne', operator_eq, optional.operator_bool,
          optional.operator_star, hev2]
      · simp [base_copy.assign_copy, hd, hs, new_value_copy, hv', copy_is_empty,
          set_is_empty, setObj_objs_ne _ _ _ _ hne', operator_eq, optional.operator_bool,
          optional.operator_star, hev']
  · constructor
    · simp [base_copy.ctor_copy, hs, base_destructor.ctor_default, operator_eq,
        optional.operator_bool, optional.operator_star, alloc_objs_ne _ _ _ hnx]
    · cases de <;> cases dv <;> simp [Opt.Inv] at hdi
      · simp [base_copy.assign_copy, hd, hs, destroy_value, copy_is_empty,
          set_is_empty, setObj_objs_ne _ _ _ _ hne', operator_eq, optional.operator_bool,
          optional.operator_star]
      · simp [base_copy.assign_copy, hd, hs, copy_is_empty,
          set_is_empty, setObj_objs_ne _ _ _ _ hne', operator_eq, optional.operator_bool,
          optional.operator_star]

/-- Witness for C20: in `world37` the instance holding `3` is assigned the one holding `7`. -/
theorem copy_round_trips_through_eq_witness :
    ∃ w' d', base_copy.assign_copy natHeld 0 1 world37 = Res.ok w' ∧
      w'.objs 0 = some d' ∧
      operator_eq natEq d' { is_empty := false, value := some 7 } = some true ∧
      w'.objs 1 = some { is_empty := false, value := some 7 } :=
  (copy_round_trips_through_eq natHeld natEq world37 0 1 { is_empty := false, value := some 3 }
    { is_empty := false, value := some 7 } (by decide) rfl rfl (by decide) (by decide) rfl
    (fun v => ⟨v, rfl, by simp [natEq]⟩) (fun _ b => ⟨b, rfl, by simp [natEq]⟩)).2

end StdOptional
